import Mathlib

/-!
Verification development for the PlanMate planning pipeline.

This file shallowly embeds the deterministic cores of the pipeline stages
(quality controller, route optimizer, coordinator search loop, event and
venue specialists, master planner coordinate rewriting) as executable Lean
definitions, and proves or refutes the specification claims about them.

Modelling conventions:
* Coordinates and distances are rationals (`ℚ`).  The haversine distance
  function `calculateDistance` of the source is transcendental, so the
  structural definitions are parameterized by an abstract distance function
  `dist : Location → Location → ℚ`; the actual haversine formula of the
  source is embedded separately as the `Prop`-valued graph relation
  `IsHavDist` over `ℝ` and is used for the numerical jitter-bound claim.
* JavaScript falsiness is modelled explicitly where the source relies on it
  (`order || 0`, `walkTime || 30`, `!itinerary.totalDistance`, falsy ids).
* External collaborators (search providers, the GPT ranking calls) are
  modelled as oracle parameters, as the specification treats them as opaque.
-/

namespace PlanMate

/-- A latitude/longitude pair, in degrees (source: `Location` in lib/types). -/
structure Location where
  lat : ℚ
  lng : ℚ
deriving DecidableEq, Repr

/-- A resolved stop of an itinerary.  Fields mirror the JS stop objects
flowing through the coordinator, route optimizer and quality controller.
`order = 0` models an absent/falsy `order`; `walkTime = 0` is falsy for the
`walkTime || 30` default; `hasLocation` models JS truthiness of `.location`
on event objects (Ticketmaster events may lack geocoding); `nearbyEvents`
keeps only the attached event ids. -/
structure Stop where
  id : String
  name : String
  category : String
  location : Location
  hasLocation : Bool := true
  order : ℕ := 0
  isExplicitRequest : Bool := false
  isPlaceholder : Bool := false
  userSpecified : Bool := false
  timingConflict : Bool := false
  isEvent : Bool := false
  startDate : Option ℚ := none
  endTime : Option ℚ := none
  walkTime : ℚ := 0
  distanceFromPrevious : ℚ := 0
  distanceFromCenter : Option ℚ := none
  purpose : String := ""
  nearbyEvents : List String := []
deriving DecidableEq, Repr

/-- The itinerary object validated and repaired by `QualityControllerAgent`
(source: payload of `QualityControllerAgent.process`, part_004). -/
structure Itinerary where
  title : String
  description : String
  stops : List Stop
  totalDistance : ℚ
  durationType : String
  isLocalSearch : Bool := false
  location : Option Location := none
  distanceWarning : Bool := false
  localSearchAdjusted : Bool := false
  removedStopsCount : ℕ := 0
  needsVariety : Bool := false
deriving DecidableEq, Repr

/-- The agent context owned by the coordinator session (source: `AgentContext`). -/
structure AgentContext where
  location : Option Location := none
  sequence_matters : Bool := false
  durationType : String := ""
deriving DecidableEq, Repr

/-- The kind of a validation issue, i.e. the keys of `validationResults`
in `QualityControllerAgent.process` (part_004). -/
inductive IssueType where
  | timing
  | variety
  | distance
  | localConstraints
  | feasibility
  | completeness
deriving DecidableEq, Repr

/-- An abstract distance function standing for the haversine
`calculateDistance` of the source (the same formula is repeated in the
quality controller, route optimizer and coordinator). -/
def DistFn : Type := Location → Location → ℚ

/-- The `s.isExplicitRequest || s.isPlaceholder || s.userSpecified`
exemption test used by every removal site in `attemptFixes` (part_004). -/
def explicitFlag (s : Stop) : Bool :=
  s.isExplicitRequest || s.isPlaceholder || s.userSpecified

/-- JS `stop.walkTime || 30` (part_004, `validateTiming`). -/
def walkTimeOr30 (s : Stop) : ℚ :=
  if s.walkTime = 0 then 30 else s.walkTime

/-- Source: `QualityControllerAgent.validateTiming` (part_004 lines 120-153).
Walks the stop list; an event stop (`startDate` present) with a predecessor
whose `endTime` is present is unreachable when
`previousEnd + walkTime*60*1000 > eventTime` (times in milliseconds). -/
def validateTimingAux : Option Stop → List Stop → Bool
  | _, [] => true
  | prev?, s :: rest =>
    match s.startDate, prev? with
    | some t, some prev =>
      match prev.endTime with
      | some e =>
        if e + walkTimeOr30 s * 60 * 1000 > t then false
        else validateTimingAux (some s) rest
      | none => validateTimingAux (some s) rest
    | _, _ => validateTimingAux (some s) rest

/-- Validity of the timing check on an itinerary. -/
def validateTiming (it : Itinerary) : Bool :=
  validateTimingAux none it.stops

/-- Source: `QualityControllerAgent.validateVariety` (part_004 lines 155-177).
Invalid when `varietyRatio = distinctCategories / stops.length < 0.3` and
`stops.length > 3`.  The ratio test is stated division-free
(`10 * distinct < 3 * length` iff `distinct / length < 0.3` for a positive
length; for an empty stop list both the source — where `0/0` is `NaN` and
`NaN < 0.3` is false — and this form report the check as valid). -/
def validateVariety (it : Itinerary) : Bool :=
  let cats := (it.stops.map (·.category)).dedup
  !(decide (10 * cats.length < 3 * it.stops.length) && decide (it.stops.length > 3))

/-- Duration-class ceiling for total distance (part_004 `validateDistance`,
lines 183-193), including the `|| default` fallback for unknown keys. -/
def maxDistanceFor (isLocalSearch : Bool) (durationType : String) : ℚ :=
  if isLocalSearch then
    if durationType = "few_hours" then 2
    else if durationType = "full_day" then 5
    else if durationType = "multi_day" then 8
    else 5
  else
    if durationType = "few_hours" then 3
    else if durationType = "full_day" then 10
    else if durationType = "multi_day" then 15
    else 10

/-- Source: `QualityControllerAgent.validateDistance` (part_004 lines 179-206). -/
def validateDistance (it : Itinerary) : Bool :=
  !(decide (it.totalDistance > maxDistanceFor it.isLocalSearch it.durationType))

/-- Maximum of the distances between consecutive stops, starting from 0
(part_004 `validateLocalConstraints`, the `maxWalkDistance` accumulator). -/
def maxConsecWalk (dist : DistFn) : List Stop → ℚ
  | [] => 0
  | [_] => 0
  | a :: b :: rest => max (dist a.location b.location) (maxConsecWalk dist (b :: rest))

/-- Source: `QualityControllerAgent.validateLocalConstraints` (part_004
lines 61-118).  Center is `context.location || itinerary.location`; invalid
when some stop is more than 3 km from the center, or else when some
consecutive walk exceeds 1.5 km. -/
def validateLocalConstraints (dist : DistFn) (ctx : AgentContext) (it : Itinerary) : Bool :=
  match ctx.location.orElse (fun _ => it.location) with
  | none => true
  | some c =>
    if it.stops.isEmpty then true
    else
      let problematic := it.stops.filter (fun s => decide (dist c s.location > 3))
      if !problematic.isEmpty then false
      else if maxConsecWalk dist it.stops > 1.5 then false
      else true

/-- Duration-class ceiling for stop count (part_004 `validateFeasibility`,
lines 208-234). -/
def maxStopsFor (isLocalSearch : Bool) (durationType : String) : ℕ :=
  if isLocalSearch then
    if durationType = "few_hours" then 3
    else if durationType = "full_day" then 5
    else if durationType = "multi_day" then 4
    else 5
  else
    if durationType = "few_hours" then 3
    else if durationType = "full_day" then 6
    else if durationType = "multi_day" then 5
    else 5

/-- Source: `QualityControllerAgent.validateFeasibility` (part_004). -/
def validateFeasibility (it : Itinerary) : Bool :=
  !(decide (it.stops.length > maxStopsFor it.isLocalSearch it.durationType))

/-- Source: `QualityControllerAgent.validateCompleteness` (part_004
lines 236-258).  A required field is "missing" when JS-falsy: empty
`title`/`description`, or `totalDistance = 0`; an empty stop array is truthy
in JS so it passes the missing-field test but fails the explicit
`stops.length === 0` check. -/
def validateCompleteness (it : Itinerary) : Bool :=
  if it.title = "" || it.description = "" || decide (it.totalDistance = 0) then false
  else if it.stops.isEmpty then false
  else true

/-- The six entries of `validationResults` in `process` (part_004 lines
16-23), in JS object insertion order; `localConstraints` is the constant
`{valid: true}` when the search is not local. -/
def validationList (dist : DistFn) (ctx : AgentContext) (it : Itinerary) :
    List (IssueType × Bool) :=
  [ (.timing, validateTiming it),
    (.variety, validateVariety it),
    (.distance, validateDistance it),
    (.localConstraints, if it.isLocalSearch then validateLocalConstraints dist ctx it else true),
    (.feasibility, validateFeasibility it),
    (.completeness, validateCompleteness it) ]

/-- The issue list derived from failing checks (part_004 lines 25-31). -/
def issuesOf (dist : DistFn) (ctx : AgentContext) (it : Itinerary) : List IssueType :=
  ((validationList dist ctx it).filter (fun p => !p.2)).map (·.1)

/-- Source: `QualityControllerAgent.calculateQualityScore` (part_004 lines
376-381): the fraction of checks that passed. -/
def calculateQualityScore (dist : DistFn) (ctx : AgentContext) (it : Itinerary) : ℚ :=
  (((validationList dist ctx it).filter (·.2)).length : ℚ) /
    ((validationList dist ctx it).length : ℚ)

/-- Stable ascending sort by `(a.order || 0) - (b.order || 0)` (JS
`Array.prototype.sort` is stable). -/
def sortByOrder (l : List Stop) : List Stop :=
  l.mergeSort (fun a b => a.order ≤ b.order)

/-- The earliest element of maximal center-distance among `x :: xs`.  This is
the element `nonExplicitStops[0]` after the source's stable
`sort((a,b) => distB - distA)` in the local `distance` fix (part_004
lines 311-317). -/
def pickFurthest (dist : DistFn) (c : Location) (x : Stop) (xs : List Stop) : Stop :=
  xs.foldl (fun best s => if dist c s.location > dist c best.location then s else best) x

/-- Removes the last element satisfying `p` (the source removes
`nonExplicitStops[nonExplicitStops.length - 1]` by object identity, i.e.
positionally). -/
def removeLastSat (p : Stop → Bool) (l : List Stop) : List Stop :=
  (l.reverse.eraseP p).reverse

/-- One iteration of the `switch` in `QualityControllerAgent.attemptFixes`
(part_004 lines 260-374), applied to the accumulated `fixed` itinerary. -/
def applyFix (dist : DistFn) (ctxLoc : Option Location) (it : Itinerary) :
    IssueType → Itinerary
  | .localConstraints =>
    match ctxLoc, it.stops.isEmpty with
    | some c, false =>
      let stopsWithDistance :=
        it.stops.map (fun s => { s with distanceFromCenter := some (dist c s.location) })
      let kept := stopsWithDistance.filter
        (fun s => decide (dist c s.location ≤ 3) || s.isExplicitRequest ||
          s.isPlaceholder || s.userSpecified)
      let it1 : Itinerary :=
        if kept.length < stopsWithDistance.length then
          { it with stops := kept, localSearchAdjusted := true,
                    removedStopsCount := stopsWithDistance.length - kept.length }
        else { it with stops := kept }
      { it1 with stops := sortByOrder it1.stops }
    | _, _ => it
  | .distance =>
    if it.isLocalSearch then
      if it.stops.isEmpty then it
      else if it.stops.all explicitFlag then { it with distanceWarning := true }
      else
        match it.stops.filter (fun s => !explicitFlag s), ctxLoc with
        | x :: xs, some c =>
          let toRemove := pickFurthest dist c x xs
          { it with stops := it.stops.filter (fun s => s.id ≠ toRemove.id) }
        | _, _ => it
    else
      if it.stops.isEmpty then it
      else if it.stops.all explicitFlag then { it with distanceWarning := true }
      else
        match it.stops.filter (fun s => !explicitFlag s) with
        | [] => { it with distanceWarning := true }
        | _ :: _ => { it with stops := removeLastSat (fun s => !explicitFlag s) it.stops }
  | .timing =>
    { it with stops := it.stops.filter (fun s => !s.timingConflict || explicitFlag s) }
  | .variety => { it with needsVariety := true }
  | .completeness => it
  | .feasibility => it

/-- Source: `QualityControllerAgent.attemptFixes` (part_004): the issue loop
threading the mutated `fixed` itinerary. -/
def attemptFixes (dist : DistFn) (ctxLoc : Option Location) (it : Itinerary)
    (issues : List IssueType) : Itinerary :=
  issues.foldl (applyFix dist ctxLoc) it

/-- The result object of `QualityControllerAgent.process` (part_004). -/
structure QCResult where
  valid : Bool
  issues : List IssueType
  itinerary : Itinerary
  qualityScore : ℚ
deriving DecidableEq, Repr

/-- Source: `QualityControllerAgent.process` (part_004 lines 10-57):
validate, derive issues, attempt fixes when any issue exists, and report the
quality score computed from the pre-repair validation results. -/
def QCprocess (dist : DistFn) (ctx : AgentContext) (it : Itinerary) : QCResult :=
  let issues := issuesOf dist ctx it
  { valid := issues.isEmpty,
    issues := issues,
    itinerary := if issues.isEmpty then it else attemptFixes dist ctx.location it issues,
    qualityScore := calculateQualityScore dist ctx it }

/-- Source: the renumbering at the end of `AgentCoordinator.executeSearches`
(part_006 lines 330-334): sort by `(a.order || 0)` and assign
`order = index + 1`. -/
def renumberStops (l : List Stop) : List Stop :=
  (sortByOrder l).mapIdx (fun i s => { s with order := i + 1 })

/-! ### Route optimizer (source: part_002, `RouteOptimizerAgent`) -/

/-- The result object of `RouteOptimizerAgent.calculateRoute` (part_002
lines 312-378).  The source's `distanceWarning` is an optional message
string built from the maximal center distance; only its presence matters to
the claims, so it is modelled as a `Bool`. -/
structure RouteResult where
  stops : List Stop
  totalDistance : ℚ
  totalWalkTime : ℚ
  averageDistanceBetweenStops : ℚ
  isLocalSearch : Bool := false
  maxDistanceFromCenter : Option ℚ := none
  distanceWarning : Bool := false
deriving DecidableEq, Repr

/-- The payload of `RouteOptimizerAgent.process`. -/
structure RoutePayload where
  allStops : List Stop
  preserveOrder : Bool
  isLocalSearch : Bool
deriving DecidableEq, Repr

/-- The hard-coded Times Square fallback `{ lat: 40.758, lng: -73.9855 }`
used when the session context has no location (part_002). -/
def defaultCenter : Location := ⟨40.758, -73.9855⟩

/-- JS `Math.round(totalDistance * 10) / 10` (part_002 line 369). -/
def roundTenth (q : ℚ) : ℚ := ((round (q * 10) : ℤ) : ℚ) / 10

/-- Distances between consecutive stops, in order. -/
def consecDists (dist : DistFn) (l : List Stop) : List ℚ :=
  (l.zip l.tail).map (fun p => dist p.1.location p.2.location)

/-- `Math.max` accumulation of each stop's distance from the center,
starting at 0 (part_002 lines 315-324). -/
def maxDistFromCenter (dist : DistFn) (c : Location) (l : List Stop) : ℚ :=
  l.foldl (fun m s => max m (dist c s.location)) 0

/-- The per-stop enrichment of `calculateRoute` (part_002 lines 319-349):
the first stop gets `walkTime = 0`, `distanceFromPrevious = 0`; later stops
get the distance from the *original* previous stop, `walkTime =
round(distance * 15)`, and `order = index + 1`. -/
def routeEnrich (dist : DistFn) : Option Stop → ℕ → List Stop → List Stop
  | _, _, [] => []
  | none, idx, s :: rest =>
    { s with walkTime := 0, distanceFromPrevious := 0, order := idx + 1 } ::
      routeEnrich dist (some s) (idx + 1) rest
  | some p, idx, s :: rest =>
    { s with walkTime := ((round (dist p.location s.location * 15) : ℤ) : ℚ),
             distanceFromPrevious := dist p.location s.location, order := idx + 1 } ::
      routeEnrich dist (some s) (idx + 1) rest

/-- Source: `RouteOptimizerAgent.calculateRoute` (part_002 lines 312-378). -/
def calculateRoute (dist : DistFn) (ctxLoc : Option Location) (stops : List Stop)
    (isLocalSearch : Bool) : RouteResult :=
  let centerLocation := ctxLoc.getD defaultCenter
  let totalDistance := (consecDists dist stops).sum
  let maxD := maxDistFromCenter dist centerLocation stops
  { stops := routeEnrich dist none 0 stops,
    totalDistance := roundTenth totalDistance,
    totalWalkTime := ((consecDists dist stops).map
      (fun d => ((round (d * 15) : ℤ) : ℚ))).sum,
    averageDistanceBetweenStops := totalDistance / ((max (stops.length - 1) 1 : ℕ) : ℚ),
    isLocalSearch := isLocalSearch,
    maxDistanceFromCenter := if isLocalSearch then some maxD else none,
    distanceWarning := isLocalSearch && decide (maxD > 3) }

/-- Source: `RouteOptimizerAgent.findNearest` (part_002 lines 232-245):
seeded with `candidates[0]`, strict-less update, so the earliest nearest
candidate wins. -/
def findNearest (dist : DistFn) (from_ : Location) : List Stop → Option Stop
  | [] => none
  | c :: cs => some (cs.foldl
      (fun best cand =>
        if dist from_ cand.location < dist from_ best.location then cand else best) c)

/-- Source: `RouteOptimizerAgent.findNearestLocal` (part_002 lines 118-139):
candidates more than 2 km from the center are skipped; the rest are ranked
by `distFromCurrent + 0.5 * distFromCenter` with strict-less update. -/
def findNearestLocal (dist : DistFn) (from_ center : Location) (candidates : List Stop) :
    Option Stop :=
  candidates.foldl
    (fun best cand =>
      if dist center cand.location > 2 then best
      else
        match best with
        | none => some cand
        | some b =>
          if dist from_ cand.location + dist center cand.location * 0.5 <
              dist from_ b.location + dist center b.location * 0.5 then some cand else best)
    none

/-- Strict-min index selection of `optimizeByDistanceLocal`'s inner loop
(part_002 lines 160-176): indices with center distance above 2.5 km are
skipped; among the rest, the earliest index of minimal distance from the
last stop wins. -/
def obdlPick (dist : DistFn) (last center : Location) (remaining : List Stop) : Option ℕ :=
  (remaining.enum.foldl
    (fun acc p =>
      if dist center p.2.location > 2.5 then acc
      else
        match acc with
        | none => some (p.1, dist last p.2.location)
        | some q => if dist last p.2.location < q.2 then some (p.1, dist last p.2.location)
                    else acc)
    none).map (·.1)

/-- The `while (remaining.length > 0)` loop of `optimizeByDistanceLocal`
(part_002 lines 160-186).  Each pass removes the picked index or breaks, so
`remaining.length` is a sufficient fuel; the fuel never runs out. -/
def obdlGo (dist : DistFn) (center : Location) : ℕ → Location → List Stop → List Stop
  | 0, _, _ => []
  | _ + 1, _, [] => []
  | fuel + 1, last, remaining =>
    match obdlPick dist last center remaining with
    | none => []
    | some i =>
      match remaining[i]? with
      | none => []
      | some nxt => nxt :: obdlGo dist center fuel nxt.location (remaining.eraseIdx i)

/-- Source: `RouteOptimizerAgent.optimizeByDistanceLocal` (part_002 lines
141-189): seed with the stop closest to the center (the seed is kept even
when it is far from the center), then greedy nearest-neighbour among stops
within 2.5 km of the center, dropping the rest. -/
def optimizeByDistanceLocal (dist : DistFn) (stops : List Stop) (center : Location) :
    List Stop :=
  match stops with
  | [] => []
  | s0 :: rest =>
    let nearest := (s0 :: rest).foldl
      (fun best s => if dist center s.location < dist center best.location then s else best) s0
    let remaining := stops.filter (fun s => s.id ≠ nearest.id)
    nearest :: obdlGo dist center remaining.length nearest.location remaining

/-- The bounded inner `for j` loop of `optimizeLocalRoute` (part_002 lines
87-96): at most `venuesBefore` iterations; a `null` nearest just burns an
iteration (the JS loop has no else branch). -/
def olrInner (dist : DistFn) (center : Location) :
    ℕ → Location → List Stop → List Stop × Location × List Stop
  | 0, last, remaining => ([], last, remaining)
  | j + 1, last, remaining =>
    if remaining.isEmpty then ([], last, remaining)
    else
      match findNearestLocal dist last center remaining with
      | none => olrInner dist center j last remaining
      | some n =>
        let r := olrInner dist center j n.location (remaining.filter (fun v => v.id ≠ n.id))
        (n :: r.1, r.2.1, r.2.2)

/-- The trailing `while` loop of `optimizeLocalRoute` (part_002 lines
104-113), with `remaining.length` as fuel (each pass removes the found stop
or breaks). -/
def olrFinal (dist : DistFn) (center : Location) : ℕ → Location → List Stop → List Stop
  | 0, _, _ => []
  | _ + 1, _, [] => []
  | fuel + 1, last, remaining =>
    match findNearestLocal dist last center remaining with
    | none => []
    | some n => n :: olrFinal dist center fuel n.location (remaining.filter (fun v => v.id ≠ n.id))

/-- The event loop of `optimizeLocalRoute` (part_002 lines 80-101): before
the event at index `i`, `ceil(remaining / (events.length - i + 1))` venues
are placed; `denom` carries `events.length - i + 1`. -/
def olrEvents (dist : DistFn) (center : Location) :
    List Stop → ℕ → Location → List Stop → List Stop
  | [], _, last, remaining => olrFinal dist center remaining.length last remaining
  | e :: es, denom, last, remaining =>
    let vb := (remaining.length + denom - 1) / denom
    let r := olrInner dist center vb last remaining
    r.1 ++ e :: olrEvents dist center es (denom - 1) e.location r.2.2

/-- Source: `RouteOptimizerAgent.optimizeLocalRoute` (part_002 lines 67-116). -/
def optimizeLocalRoute (dist : DistFn) (ctxLoc : Option Location)
    (venues events : List Stop) : List Stop :=
  let center := ctxLoc.getD defaultCenter
  if events.isEmpty then optimizeByDistanceLocal dist venues center
  else olrEvents dist center events (events.length + 1) center venues

/-- The bounded inner loop of `optimizeWithTimeConstraints` (part_002 lines
204-214); `findNearest` never returns `none` here because the loop guards
non-emptiness. -/
def otcInner (dist : DistFn) : ℕ → Location → List Stop → List Stop × Location × List Stop
  | 0, last, remaining => ([], last, remaining)
  | j + 1, last, remaining =>
    if remaining.isEmpty then ([], last, remaining)
    else
      match findNearest dist last remaining with
      | none => ([], last, remaining)
      | some n =>
        let r := otcInner dist j n.location (remaining.filter (fun v => v.id ≠ n.id))
        (n :: r.1, r.2.1, r.2.2)

/-- The trailing `while` loop of `optimizeWithTimeConstraints` (part_002
lines 222-227), with `remaining.length` as fuel. -/
def otcFinal (dist : DistFn) : ℕ → Location → List Stop → List Stop
  | 0, _, _ => []
  | _ + 1, _, [] => []
  | fuel + 1, last, remaining =>
    match findNearest dist last remaining with
    | none => []
    | some n => n :: otcFinal dist fuel n.location (remaining.filter (fun v => v.id ≠ n.id))

/-- The event loop of `optimizeWithTimeConstraints` (part_002 lines 201-219). -/
def otcEvents (dist : DistFn) : List Stop → ℕ → Location → List Stop → List Stop
  | [], _, last, remaining => otcFinal dist remaining.length last remaining
  | e :: es, denom, last, remaining =>
    let vb := (remaining.length + denom - 1) / denom
    let r := otcInner dist vb last remaining
    r.1 ++ e :: otcEvents dist es (denom - 1) e.location r.2.2

/-- Strict-min index selection of `optimizeByDistance` (part_002 lines
253-270): no center constraint, every index qualifies. -/
def obdPick (dist : DistFn) (last : Location) (remaining : List Stop) : Option ℕ :=
  (remaining.enum.foldl
    (fun acc p =>
      match acc with
      | none => some (p.1, dist last p.2.location)
      | some q => if dist last p.2.location < q.2 then some (p.1, dist last p.2.location)
                  else acc)
    none).map (·.1)

/-- The loop of `optimizeByDistance`, with fuel. -/
def obdGo (dist : DistFn) : ℕ → Location → List Stop → List Stop
  | 0, _, _ => []
  | _ + 1, _, [] => []
  | fuel + 1, last, remaining =>
    match obdPick dist last remaining with
    | none => []
    | some i =>
      match remaining[i]? with
      | none => []
      | some nxt => nxt :: obdGo dist fuel nxt.location (remaining.eraseIdx i)

/-- Source: `RouteOptimizerAgent.optimizeByDistance` (part_002 lines
247-274): seeded with `stops[0]`, greedy nearest-neighbour on the rest. -/
def optimizeByDistance (dist : DistFn) (stops : List Stop) : List Stop :=
  match stops with
  | [] => []
  | s0 :: rest => s0 :: obdGo dist rest.length s0.location rest

/-- Source: `RouteOptimizerAgent.optimizeWithTimeConstraints` (part_002
lines 191-230). -/
def optimizeWithTimeConstraints (dist : DistFn) (ctxLoc : Option Location)
    (venues events : List Stop) : List Stop :=
  if events.isEmpty then optimizeByDistance dist venues
  else otcEvents dist events (events.length + 1) (ctxLoc.getD defaultCenter) venues

/-- Source: `RouteOptimizerAgent.process` (part_002 lines 10-65). -/
def RTprocess (dist : DistFn) (ctx : AgentContext) (p : RoutePayload) : RouteResult :=
  let stops := p.allStops
  if stops.isEmpty then
    { stops := [], totalDistance := 0, totalWalkTime := 0, averageDistanceBetweenStops := 0 }
  else if p.preserveOrder || ctx.sequence_matters then
    calculateRoute dist ctx.location (sortByOrder stops) p.isLocalSearch
  else
    let events := stops.filter (fun s => s.isEvent && s.startDate.isSome)
    let venues := stops.filter (fun s => !(s.isEvent && s.startDate.isSome))
    let eventsSorted := events.mergeSort (fun a b => a.startDate.getD 0 ≤ b.startDate.getD 0)
    let optimized :=
      if p.isLocalSearch then optimizeLocalRoute dist ctx.location venues eventsSorted
      else optimizeWithTimeConstraints dist ctx.location venues eventsSorted
    calculateRoute dist ctx.location optimized p.isLocalSearch

/-! ### Event specialist (source: src/mcp/agents/event-specialist.ts) -/

/-- A Ticketmaster event as seen by `searchWithFallback`: only the id takes
part in any control flow (dedup and the falsy-id skip), so other fields are
omitted.  `id = ""` models a falsy id. -/
structure TMEvent where
  id : String
deriving DecidableEq, Repr

/-- The early-stop target of `EventSpecialistAgent.process` (line 28):
`durationType === 'few_hours' ? 5 : 15`. -/
def targetCount (shortTrip : Bool) : ℕ := if shortTrip then 5 else 15

/-- The final truncation limit of `EventSpecialistAgent.rankEvents`
(line 257): `durationType === 'few_hours' ? 3 : 10`. -/
def rankLimit (shortTrip : Bool) : ℕ := if shortTrip then 3 else 10

/-- The per-batch accumulation loop of `searchWithFallback` (lines
198-202): events with a falsy id or an already-seen id are skipped, the
rest are appended in order and their ids recorded. -/
def addBatch : List TMEvent → List String → List TMEvent → List TMEvent × List String
  | collected, seen, [] => (collected, seen)
  | collected, seen, e :: es =>
    if e.id = "" ∨ e.id ∈ seen then addBatch collected seen es
    else addBatch (collected ++ [e]) (seen ++ [e.id]) es

/-- The term loop of `searchWithFallback` (lines 187-206): one provider
call per remaining term, breaking as soon as the accumulated count reaches
the target.  `called` records the terms actually sent to the provider, in
order. -/
def swfGo (provider : String → List TMEvent) (target : ℕ) :
    List String → List TMEvent → List String → List String → List TMEvent × List String
  | [], collected, _, called => (collected, called)
  | t :: ts, collected, seen, called =>
    let r := addBatch collected seen (provider t)
    if target ≤ r.1.length then (r.1, called ++ [t])
    else swfGo provider target ts r.1 r.2 (called ++ [t])

/-- Source: `EventSpecialistAgent.searchWithFallback` (lines 157-209).  An
empty term list is the `noKeywords` mode: exactly one blank-keyword call. -/
def searchWithFallback (provider : String → List TMEvent) (terms : List String)
    (target : ℕ) : List TMEvent × List String :=
  if terms.isEmpty then ((addBatch [] [] (provider "")).1, [""])
  else swfGo provider target terms [] [] []

/-- Source: `EventSpecialistAgent.rankEvents` (lines 213-259): the GPT
scoring is an opaque reordering (modelled as the `rank` oracle, assumed to
permute its input), then the list is truncated to the rank limit. -/
def rankEvents (rank : List TMEvent → List TMEvent) (shortTrip : Bool)
    (events : List TMEvent) : List TMEvent :=
  (rank events).take (rankLimit shortTrip)

/-- Provider for the C3 counterexample: three distinct events for term
"a", one more for term "b". -/
def evProvider : String → List TMEvent := fun t =>
  if t = "a" then [⟨"e1"⟩, ⟨"e2"⟩, ⟨"e3"⟩]
  else if t = "b" then [⟨"e4"⟩] else []

/-! ### Venue specialist (source: src/mcp/agents/event-specialist.ts,
`VenueSpecialistAgent`, lines 261-483) -/

/-- A venue as seen by the dedup filter: id and name are the only fields
that take part in any control flow. -/
structure VSVenue where
  id : String
  name : String
deriving DecidableEq, Repr

/-- JS `String.prototype.includes`: the needle occurs as a contiguous
substring of the haystack. -/
def strIncludes (hay sub : String) : Bool :=
  hay.data.tails.any (fun t => sub.data.isPrefixOf t)

/-- The similar-name test of the dedup filter (lines 310-314). -/
def similarName (prevVenues : List VSVenue) (v : VSVenue) : Bool :=
  prevVenues.any (fun sel =>
    sel.name.toLower = v.name.toLower ||
    strIncludes sel.name v.name || strIncludes v.name sel.name)

/-- The first dedup filter (lines 302-322): drop venues whose id was
already selected in this session or used by this agent instance, and
venues with a too-similar name. -/
def vsFilter (prevVenues : List VSVenue) (prevIds usedIds : List String)
    (venues : List VSVenue) : List VSVenue :=
  venues.filter (fun v =>
    !(decide (v.id ∈ prevIds) || decide (v.id ∈ usedIds)) && !similarName prevVenues v)

/-- The result of one `VenueSpecialistAgent.process` call: the returned
venue list plus the updated instance-level `usedVenueIds` and the session's
`selectedVenues`.  `usedVenueIds` is a JS `Set` in the source; a list with
append models it (membership is all that is read). -/
structure VSResult where
  venues : List VSVenue
  usedVenueIds : List String
  selectedVenues : List VSVenue
deriving DecidableEq, Repr

/-- The candidate list after dedup filtering and the optional radius-doubled
retry (lines 302-338): when the first filter empties the list and a radius
is present, the second provider call is filtered by ids only. -/
def vsCandidates (provider1 provider2 : List VSVenue) (hasRadius : Bool)
    (prevSelected : List VSVenue) (usedIds : List String) : List VSVenue :=
  let prevIds := prevSelected.map (·.id)
  let filtered := vsFilter prevSelected prevIds usedIds provider1
  if filtered.isEmpty && hasRadius then
    provider2.filter (fun v => !(decide (v.id ∈ prevIds)) && !(decide (v.id ∈ usedIds)))
  else filtered

/-- The scored-and-enriched list (lines 340-344): the opaque GPT scoring
`rank` permutes the candidates, then the top 5 are enriched
(`enrichVenues` only adds a description, so it is the identity here). -/
def vsEnriched (rank : List VSVenue → List VSVenue)
    (provider1 provider2 : List VSVenue) (hasRadius : Bool)
    (prevSelected : List VSVenue) (usedIds : List String) : List VSVenue :=
  (rank (vsCandidates provider1 provider2 hasRadius prevSelected usedIds)).take 5

/-- Source: `VenueSpecialistAgent.process` (lines 275-362).  The head of
the returned list is recorded in the instance-level `usedVenueIds` and the
session's `selectedVenues` (lines 346-357); `usedVenueIds` is a JS `Set`,
modelled as a list with append (membership is all that is read). -/
def VSprocess (rank : List VSVenue → List VSVenue) (provider1 provider2 : List VSVenue)
    (hasRadius : Bool) (prevSelected : List VSVenue) (usedIds : List String) : VSResult :=
  if provider1.isEmpty then ⟨[], usedIds, prevSelected⟩
  else
    match vsEnriched rank provider1 provider2 hasRadius prevSelected usedIds with
    | [] => ⟨[], usedIds, prevSelected⟩
    | sel :: rest => ⟨sel :: rest, usedIds ++ [sel.id], prevSelected ++ [sel]⟩

/-! ### Coordinator search loop (source: part_006,
`AgentCoordinator.executeSearches`) and Google Places client (part_000,
`GoogleMapsClient.searchVenues`) -/

/-- A planned stop descriptor (source: the `searchPoints` entries of the
master plan). -/
structure SearchPoint where
  stopNumber : ℕ
  type : String
  query : String
  category : String
  location : Location
  purpose : String := ""
  isExplicitRequest : Bool := false
deriving DecidableEq, Repr

/-- The plan fields read by `executeSearches`. -/
structure ExecPlan where
  searchPoints : List SearchPoint
  isLocalSearch : Bool := false
deriving DecidableEq, Repr

/-- The search-loop state threaded through the point loop of
`executeSearches`: the event-dedup set and the two event flags.  The venue
branch never touches it. -/
structure ExecState where
  existingEventIds : List String := []
  eventSearchAttempted : Bool := false
  noEventsFound : Bool := false
deriving DecidableEq, Repr

/-- The result of `executeSearches` (the fields the claims are about). -/
structure ExecResult where
  allStops : List Stop
  noEventsFound : Bool
deriving DecidableEq, Repr

/-- The local out-of-bounds point adjustment (part_006 lines 163-179): when
a local plan's point is more than 1.5 km from the center its coordinate is
replaced by a bearing-preserving point ~1.5 km out; the trigonometric
computation is the opaque `adjust` oracle. -/
def adjustPoint (dist : DistFn) (adjust : Location → Location → Location)
    (isLocal : Bool) (ctxLoc : Option Location) (p : SearchPoint) : SearchPoint :=
  if isLocal then
    match ctxLoc with
    | some c => if dist c p.location > 1.5 then { p with location := adjust c p.location } else p
    | none => p
  else p

/-- The placeholder stop built when a venue search yields nothing or throws
(part_006 lines 241-254 and 258-270; the two sites differ only in the
`address` string, which the claims do not mention). -/
def mkPlaceholder (p : SearchPoint) : Stop :=
  { id := "placeholder_" ++ toString p.stopNumber, name := p.query,
    category := if p.category = "" then "venue" else p.category,
    location := p.location, purpose := p.purpose, order := p.stopNumber,
    isExplicitRequest := p.isExplicitRequest, isPlaceholder := true, isEvent := false }

/-- The venue branch of the point loop (part_006 lines 181-271): a thrown
venue call or an empty result yields a placeholder; otherwise the first
venue is selected, possibly swapped to a closer one in local mode, tagged,
and the nearby-events attachment is attempted (its failures are swallowed). -/
def resolveVenuePoint (dist : DistFn) (isLocal : Bool) (ctxLoc : Option Location)
    (p : SearchPoint) (venueRes : Except Unit (List Stop))
    (nearbyRes : Except Unit (List String)) : Stop :=
  match venueRes with
  | .error _ => mkPlaceholder p
  | .ok [] => mkPlaceholder p
  | .ok (v :: vs) =>
    let v1 :=
      if isLocal then
        match ctxLoc with
        | some c =>
          if dist c v.location > 2 then
            match (v :: vs).find? (fun u => decide (dist c u.location < 2)) with
            | some u => { v with location := u.location, name := u.name }
            | none => v
          else v
        | none => v
      else v
    let v2 := { v1 with
      purpose := p.purpose, order := p.stopNumber,
      isExplicitRequest := p.isExplicitRequest, userSpecified := true,
      isEvent := false }
    match nearbyRes with
    | .ok l => if l.isEmpty then v2 else { v2 with nearbyEvents := l }
    | .error _ => v2

/-- The first-non-duplicate selection of the event branch (part_006 lines
291-306): ids already seen are skipped; in local mode an event with a
(present) location more than 3 km away is skipped too. -/
def pickEvent (dist : DistFn) (isLocal : Bool) (ctxLoc : Option Location)
    (existing : List String) : List Stop → Option Stop
  | [] => none
  | e :: es =>
    if e.id ∈ existing then pickEvent dist isLocal ctxLoc existing es
    else
      match ctxLoc with
      | some c =>
        if isLocal && e.hasLocation && decide (dist c e.location > 3) then
          pickEvent dist isLocal ctxLoc existing es
        else some e
      | none => some e

/-- The event branch of the point loop (part_006 lines 273-327): a thrown
or empty search sets `noEventsFound`; an all-duplicates result contributes
no stop and sets no flag. -/
def resolveEventPoint (dist : DistFn) (isLocal : Bool) (ctxLoc : Option Location)
    (p : SearchPoint) (existing : List String) (eventRes : Except Unit (List Stop)) :
    List Stop × List String × Bool :=
  match eventRes with
  | .error _ => ([], existing, true)
  | .ok [] => ([], existing, true)
  | .ok (e :: es) =>
    match pickEvent dist isLocal ctxLoc existing (e :: es) with
    | none => ([], existing, false)
    | some sel =>
      ([{ sel with
          purpose := p.purpose, order := p.stopNumber,
          isExplicitRequest := p.isExplicitRequest, userSpecified := true,
          isEvent := true }], existing ++ [sel.id], false)

/-- One iteration of the point loop, for the point at index `i`. -/
def execStep (dist : DistFn) (adjust : Location → Location → Location)
    (isLocal : Bool) (ctxLoc : Option Location)
    (venueO : ℕ → Except Unit (List Stop)) (nearbyO : ℕ → Except Unit (List String))
    (eventO : ℕ → Except Unit (List Stop)) (i : ℕ) (p0 : SearchPoint)
    (st : ExecState) : List Stop × ExecState :=
  let p := adjustPoint dist adjust isLocal ctxLoc p0
  if p.type = "venue" then
    ([resolveVenuePoint dist isLocal ctxLoc p (venueO i) (nearbyO i)], st)
  else if p.type = "event" then
    let r := resolveEventPoint dist isLocal ctxLoc p st.existingEventIds (eventO i)
    (r.1, { existingEventIds := r.2.1, eventSearchAttempted := true,
            noEventsFound := st.noEventsFound || r.2.2 })
  else ([], st)

/-- The point loop of `executeSearches`. -/
def execGo (dist : DistFn) (adjust : Location → Location → Location)
    (isLocal : Bool) (ctxLoc : Option Location)
    (venueO : ℕ → Except Unit (List Stop)) (nearbyO : ℕ → Except Unit (List String))
    (eventO : ℕ → Except Unit (List Stop)) :
    List (ℕ × SearchPoint) → ExecState → List Stop × ExecState
  | [], st => ([], st)
  | ip :: rest, st =>
    let r := execStep dist adjust isLocal ctxLoc venueO nearbyO eventO ip.1 ip.2 st
    let r2 := execGo dist adjust isLocal ctxLoc venueO nearbyO eventO rest r.2
    (r.1 ++ r2.1, r2.2)

/-- Source: `AgentCoordinator.executeSearches` (part_006 lines 145-364):
run the point loop, then sort by `order` and renumber `1..N`
(lines 330-334); `noEventsFound` is reported only when an event search was
attempted. -/
def executeSearches (dist : DistFn) (adjust : Location → Location → Location)
    (plan : ExecPlan) (ctx : AgentContext)
    (venueO : ℕ → Except Unit (List Stop)) (nearbyO : ℕ → Except Unit (List String))
    (eventO : ℕ → Except Unit (List Stop)) : ExecResult :=
  let r := execGo dist adjust plan.isLocalSearch ctx.location venueO nearbyO eventO
    plan.searchPoints.enum {}
  { allStops := renumberStops r.1,
    noEventsFound := r.2.eventSearchAttempted && r.2.noEventsFound }

/-- Source: `GoogleMapsClient.searchVenues` (part_000 lines 13-164).  The
four provider calls are the strategy oracles; `rankNearby` is the
rating/review sort of the nearby strategy (its `Math.log` scoring is
transcendental and does not affect the claims).  The whole body sits in a
`try/catch` returning `[]`, and the nearby strategy additionally has its
own inner catch that falls through to the text strategy. -/
def searchVenuesModel (dist : DistFn) (loc : Location) (radius : ℚ) (limit : ℕ)
    (category : String) (rankNearby : List Stop → List Stop)
    (nearbyRes textRes broaderRes landmarkRes : Except Unit (List Stop)) : List Stop :=
  let isFoodType := category = "food" ∨ category = "restaurant" ∨
    category = "coffee" ∨ category = "cafe"
  let step2 : List Stop :=
    match textRes with
    | .error _ => []
    | .ok ps =>
      if !ps.isEmpty then ps.take limit
      else
        match broaderRes with
        | .error _ => []
        | .ok ps2 =>
          let nearbyPlaces := ps2.filter (fun q => decide (dist loc q.location < radius * 2 / 1000))
          if !ps2.isEmpty then
            (if !nearbyPlaces.isEmpty then nearbyPlaces.take limit else [])
          else if category = "landmark" then
            match landmarkRes with
            | .error _ => []
            | .ok ps3 => if !ps3.isEmpty then ps3.take 1 else []
          else []
  if isFoodType then
    match nearbyRes with
    | .ok ps => if !ps.isEmpty then (rankNearby ps).take limit else step2
    | .error _ => step2
  else step2

/-! ### Concrete inputs used by witnesses and counterexamples -/

/-- A concrete executable stand-in for the haversine metric used to evaluate
the model on explicit inputs: one degree is one kilometre, L1 norm.  It is
nonnegative, symmetric and zero on the diagonal, like the haversine. -/
def flatDist : DistFn := fun a b => |a.lat - b.lat| + |a.lng - b.lng|

/-- Session context at the origin for the quality-gate examples. -/
def qcCtx0 : AgentContext := { location := some ⟨0, 0⟩, durationType := "few_hours" }

/-- An explicit-request stop 5 km (flat metric) from the origin. -/
def stopExplicitFar : Stop :=
  { id := "e1", name := "Explicit Far", category := "museum",
    location := ⟨5, 0⟩, order := 1, isExplicitRequest := true }

/-- A local-search itinerary whose single stop is an explicit request far
beyond the 3 km cap; total distance is small so only `localConstraints`
fails. -/
def itExplicitFar : Itinerary :=
  { title := "t", description := "d", stops := [stopExplicitFar], totalDistance := 1,
    durationType := "few_hours", isLocalSearch := true, location := none }

/-- Two stops 0.26 km apart (flat metric) for the C9 counterexample. -/
def stopN0 : Stop := { id := "n0", name := "n0", category := "a", location := ⟨0, 0⟩, order := 1 }

/-- Second stop of the C9 counterexample pair. -/
def stopN1 : Stop :=
  { id := "n1", name := "n1", category := "b", location := ⟨0.26, 0⟩, order := 2 }

/-- Stops with orders 1, 2, 3 for the C2 counterexample: the middle one is
the last non-exempt stop, so the non-local distance repair removes it. -/
def stopO1 : Stop := { id := "o1", name := "o1", category := "a", location := ⟨0, 0⟩, order := 1 }

/-- Second stop (non-exempt, will be removed). -/
def stopO2 : Stop := { id := "o2", name := "o2", category := "b", location := ⟨1, 0⟩, order := 2 }

/-- Third stop (explicit request, survives). -/
def stopO3 : Stop :=
  { id := "o3", name := "o3", category := "c", location := ⟨2, 0⟩, order := 3,
    isExplicitRequest := true }

/-- A non-local itinerary whose total distance 5 km exceeds the 3 km
`few_hours` ceiling, so exactly the `distance` check fails. -/
def itOrders : Itinerary :=
  { title := "t", description := "d", stops := [stopO1, stopO2, stopO3], totalDistance := 5,
    durationType := "few_hours", isLocalSearch := false, location := none }

/-- A stop at the origin for the C5 example. -/
def stopVA : Stop := { id := "a", name := "a", category := "x", location := ⟨0, 0⟩, order := 1 }

/-- A stop 10 km (flat metric) from the origin. -/
def stopVB : Stop := { id := "b", name := "b", category := "y", location := ⟨5, 5⟩, order := 2 }

/-- Local-search payload without order preservation. -/
def payloadC5 : RoutePayload :=
  { allStops := [stopVA, stopVB], preserveOrder := false, isLocalSearch := true }

/-- The same stops with order preservation, for the C5 witness. -/
def payloadC5p : RoutePayload :=
  { allStops := [stopVA, stopVB], preserveOrder := true, isLocalSearch := true }

/-- Session context at the origin with `sequence_matters = false`. -/
def rtCtx0 : AgentContext := { location := some ⟨0, 0⟩, durationType := "few_hours" }

/-- Near non-exempt stop for the C4 counterexample. -/
def stopW1 : Stop := { id := "w1", name := "w1", category := "a", location := ⟨1, 0⟩, order := 1 }

/-- First far non-exempt stop (4 km). -/
def stopW2 : Stop := { id := "w2", name := "w2", category := "b", location := ⟨4, 0⟩, order := 2 }

/-- Second far non-exempt stop (5 km). -/
def stopW3 : Stop := { id := "w3", name := "w3", category := "c", location := ⟨5, 0⟩, order := 3 }

/-- A local itinerary with two stops beyond the 3 km cap; only the
`localConstraints` check fails. -/
def itTwoFar : Itinerary :=
  { title := "t", description := "d", stops := [stopW1, stopW2, stopW3], totalDistance := 1,
    durationType := "few_hours", isLocalSearch := true, location := none }

/-! ### MasterPlannerAgent.ensureNearbyLocations (part_003 lines 164-214) -/

/-- The searchStrategy object of a plan (part_003 lines 101-107). -/
structure SearchStrategy where
  type : String := "balanced"
  includeEvents : Bool := false
  searchRadius : ℚ := 2000
  maxStops : ℕ := 0
  priorityMode : String := "mixed"
deriving DecidableEq, Repr

/-- The intent fields read by `ensureNearbyLocations`.  The prompt is
modelled already lower-cased (the source applies `.toLowerCase()` before
every `.includes` test). -/
structure PIntent where
  original_prompt : String := ""
  user_location : Option Location := none
  explicit_venues : List String := []
  location_context_locations : List String := []
  location_context_visit_locations : List String := []
deriving DecidableEq, Repr

/-- The plan fields read by `ensureNearbyLocations`. -/
structure PlanModel where
  searchPoints : List SearchPoint := []
  searchStrategy : Option SearchStrategy := none
deriving DecidableEq, Repr

/-- The hard-coded fallback user location (part_003 line 165). -/
def defaultUserLoc : Location := ⟨40.7580, -73.9855⟩

/-- part_003 lines 168-173: the prompt marks a local search when it
contains one of five substrings. -/
def isLocalSearch (intent : PIntent) : Bool :=
  strIncludes intent.original_prompt "local" ||
  strIncludes intent.original_prompt "nearby" ||
  strIncludes intent.original_prompt "around here" ||
  strIncludes intent.original_prompt "best spots" ||
  strIncludes intent.original_prompt "date"

/-- part_003 lines 176-179: the intent carries explicit locations. -/
def hasSpecificLocations (intent : PIntent) : Bool :=
  !intent.explicit_venues.isEmpty ||
  !intent.location_context_locations.isEmpty ||
  !intent.location_context_visit_locations.isEmpty

/-- part_003 lines 183-196: one point's coordinate is overwritten with the
user location plus `(Math.random() - 0.5) * 0.009` per axis; `r` is the
pair of pseudo-random draws for this point, each in `[0, 1)`. -/
def jitterPoint (userLoc : Location) (r : ℚ × ℚ) (p : SearchPoint) : SearchPoint :=
  { p with location :=
      ⟨userLoc.lat + (r.1 - 1/2) * (9/1000), userLoc.lng + (r.2 - 1/2) * (9/1000)⟩ }

/-- part_003 lines 164-214.  `jit i` supplies the two `Math.random()` draws
used for the `i`-th search point. -/
def ensureNearbyLocations (jit : ℕ → ℚ × ℚ) (plan : PlanModel) (intent : PIntent) :
    PlanModel :=
  let userLocation := intent.user_location.getD defaultUserLoc
  if isLocalSearch intent && !hasSpecificLocations intent then
    { searchPoints := plan.searchPoints.mapIdx (fun i p => jitterPoint userLocation (jit i) p),
      searchStrategy := plan.searchStrategy.map (fun st => { st with searchRadius := 1500 }) }
  else if !hasSpecificLocations intent then
    match plan.searchPoints with
    | [] => plan
    | p0 :: rest =>
      { plan with searchPoints := { p0 with location := userLocation } :: rest }
  else plan

/-- `d` is the value `RouteOptimizerAgent.calculateDistance` (part_002
lines 380-389) computes for `l1`, `l2`: the haversine formula with
`c = 2 * atan2(sqrt a, sqrt (1-a))` and Earth radius 6371 km.  `atan2 y x`
is `arctan (y/x)` for `x > 0` and `pi/2` for `x = 0, y > 0`; both
arguments here are square roots, so no other quadrant can arise (the
corner `a <= 0` and `a >= 1` at once, where JS would give `atan2 0 0 = 0`,
is unsatisfiable). -/
def IsHavDist (l1 l2 : Location) (d : ℝ) : Prop :=
  ∃ a c : ℝ,
    a = Real.sin (((l2.lat - l1.lat : ℚ) : ℝ) * Real.pi / 180 / 2) ^ 2 +
        Real.cos ((l1.lat : ℝ) * Real.pi / 180) * Real.cos ((l2.lat : ℝ) * Real.pi / 180) *
          Real.sin (((l2.lng - l1.lng : ℚ) : ℝ) * Real.pi / 180 / 2) ^ 2 ∧
    ((Real.sqrt (1 - a) ≠ 0 ∧ c = Real.arctan (Real.sqrt a / Real.sqrt (1 - a))) ∨
      (Real.sqrt (1 - a) = 0 ∧ c = Real.pi / 2)) ∧
    d = 6371 * (2 * c)

/-- Intent for the C6 counterexample: a local-search prompt, no explicit
locations, user at the equator origin. -/
def intentC6 : PIntent :=
  { original_prompt := "best local spots for a date", user_location := some ⟨0, 0⟩ }

/-- The single search point of the C6 counterexample plan. -/
def pointC6 : SearchPoint :=
  { stopNumber := 1, type := "venue", query := "cafe", category := "cafe",
    location := ⟨10, 10⟩ }

/-- Plan for the C6 counterexample: one venue point away from the user. -/
def planC6 : PlanModel :=
  { searchPoints := [pointC6], searchStrategy := some {} }

/-- A venue-type search point for the C7 witness. -/
def pointC7 : SearchPoint :=
  { stopNumber := 1, type := "venue", query := "sushi bar", category := "",
    location := ⟨1, 2⟩ }

/-- A venue oracle that always throws, for the C7 witness. -/
def venueErrO : ℕ → Except Unit (List Stop) := fun _ => .error ()

/-- A nearby-events oracle returning nothing. -/
def nearbyNilO : ℕ → Except Unit (List String) := fun _ => .ok []

/-- An event oracle returning nothing. -/
def eventNilO : ℕ → Except Unit (List Stop) := fun _ => .ok []

/-- The identity bearing adjustment (stands for the trigonometric
adjustment oracle in concrete instantiations). -/
def idAdjust : Location → Location → Location := fun _ l => l

/-! ### Generic facts about the repair pass -/

theorem subperm_map {α β : Type} (f : α → β) {l₁ l₂ : List α}
    (h : List.Subperm l₁ l₂) : List.Subperm (l₁.map f) (l₂.map f) := by
  obtain ⟨l, hp, hs⟩ := h
  exact ⟨l.map f, hp.map f, hs.map f⟩

theorem nodup_of_subperm {α : Type} {l₁ l₂ : List α}
    (h : List.Subperm l₁ l₂) (h2 : l₂.Nodup) : l₁.Nodup := by
  obtain ⟨l, hp, hs⟩ := h
  exact hp.nodup (hs.nodup h2)

/-- The identity-relevant key of a stop: id, order, and the explicit flags.
Every repair keeps each surviving stop's key unchanged. -/
def stopKey (s : Stop) : String × ℕ × Bool × Bool :=
  (s.id, s.order, s.isExplicitRequest, explicitFlag s)

theorem pickFurthest_mem (dist : DistFn) (c : Location) (x : Stop) (xs : List Stop) :
    pickFurthest dist c x xs ∈ x :: xs := by
  unfold pickFurthest
  induction xs generalizing x with
  | nil => simp
  | cons y ys ih =>
    simp only [List.foldl_cons]
    by_cases h : dist c y.location > dist c x.location
    · simp only [if_pos h]
      rcases List.mem_cons.1 (ih y) with h1 | h1
      · simp [h1]
      · simp [h1]
    · simp only [if_neg h]
      rcases List.mem_cons.1 (ih x) with h1 | h1
      · simp [h1]
      · simp [h1]

theorem removeLastSat_subperm (p : Stop → Bool) (l : List Stop) :
    List.Subperm ((removeLastSat p l).map stopKey) (l.map stopKey) := by
  unfold removeLastSat
  have h2 : List.Sublist ((l.reverse.eraseP p).map stopKey) (l.reverse.map stopKey) :=
    (List.eraseP_sublist _).map stopKey
  have h3 : List.Perm ((l.reverse.eraseP p).reverse.map stopKey)
      ((l.reverse.eraseP p).map stopKey) := ((l.reverse.eraseP p).reverse_perm).map stopKey
  have h4 : List.Perm (l.reverse.map stopKey) (l.map stopKey) := (l.reverse_perm).map stopKey
  exact (h3.subperm.trans h2.subperm).trans h4.subperm

theorem mem_removeLastSat (p : Stop → Bool) (l : List Stop) (s : Stop)
    (hs : s ∈ l) (hp : p s = false) : s ∈ removeLastSat p l := by
  unfold removeLastSat
  rw [List.mem_reverse]
  exact (List.mem_eraseP_of_neg (by simp [hp])).2 (List.mem_reverse.2 hs)

/-- Every fix keeps the multiset of surviving stop keys inside the input's. -/
theorem applyFix_key_subperm (dist : DistFn) (ctxLoc : Option Location)
    (it : Itinerary) (i : IssueType) :
    List.Subperm ((applyFix dist ctxLoc it i).stops.map stopKey) (it.stops.map stopKey) := by
  cases i with
  | localConstraints =>
    unfold applyFix
    cases hc : ctxLoc with
    | none => exact List.Subperm.refl _
    | some c =>
      cases he : it.stops.isEmpty with
      | true => exact List.Subperm.refl _
      | false =>
        simp only []
        set enriched := it.stops.map
          (fun s => { s with distanceFromCenter := some (dist c s.location) }) with hen
        set kept := enriched.filter
          (fun s => decide (dist c s.location ≤ 3) || s.isExplicitRequest ||
            s.isPlaceholder || s.userSpecified) with hk
        have hkeys : enriched.map stopKey = it.stops.map stopKey := by
          rw [hen, List.map_map]; rfl
        have hsub : List.Sublist (kept.map stopKey) (enriched.map stopKey) :=
          (List.filter_sublist _).map stopKey
        have hperm : ∀ l : List Stop, List.Perm ((sortByOrder l).map stopKey) (l.map stopKey) :=
          fun l => (List.mergeSort_perm l _).map stopKey
        have hmain : List.Subperm ((sortByOrder kept).map stopKey) (it.stops.map stopKey) := by
          refine List.Subperm.trans (hperm kept).subperm ?_
          rw [← hkeys]; exact hsub.subperm
        split <;> simpa using hmain
  | distance =>
    unfold applyFix
    by_cases hl : it.isLocalSearch <;> simp only [hl]
    · by_cases he : it.stops.isEmpty <;> simp only [he]
      · exact List.Subperm.refl _
      · by_cases ha : it.stops.all explicitFlag <;> simp only [ha]
        · exact List.Subperm.refl _
        · rcases hnr : it.stops.filter (fun s => !explicitFlag s) with _ | ⟨x, xs⟩
          · simp only [hnr]; exact List.Subperm.refl _
          · cases hc : ctxLoc with
            | none => simp only [hnr]; exact List.Subperm.refl _
            | some c =>
              simp only [hnr]
              exact ((List.filter_sublist _).map stopKey).subperm
    · by_cases he : it.stops.isEmpty <;> simp only [he]
      · exact List.Subperm.refl _
      · by_cases ha : it.stops.all explicitFlag <;> simp only [ha]
        · exact List.Subperm.refl _
        · rcases hnr : it.stops.filter (fun s => !explicitFlag s) with _ | ⟨x, xs⟩
          · simp only [hnr]; exact List.Subperm.refl _
          · simp only [hnr]
            exact removeLastSat_subperm _ _
  | timing =>
    unfold applyFix
    exact ((List.filter_sublist _).map stopKey).subperm
  | variety => unfold applyFix; exact List.Subperm.refl _
  | completeness => unfold applyFix; exact List.Subperm.refl _
  | feasibility => unfold applyFix; exact List.Subperm.refl _

theorem attemptFixes_key_subperm (dist : DistFn) (ctxLoc : Option Location)
    (it : Itinerary) (issues : List IssueType) :
    List.Subperm ((attemptFixes dist ctxLoc it issues).stops.map stopKey) (it.stops.map stopKey) := by
  unfold attemptFixes
  induction issues generalizing it with
  | nil => exact List.Subperm.refl _
  | cons i rest ih =>
    simp only [List.foldl_cons]
    exact (ih (applyFix dist ctxLoc it i)).trans (applyFix_key_subperm dist ctxLoc it i)

theorem explicitFlag_of_explicit {s : Stop} (h : s.isExplicitRequest = true) :
    explicitFlag s = true := by
  simp [explicitFlag, h]

/-- The enrichment map of the `localConstraints` fix. -/
def lcEnrich (dist : DistFn) (c : Location) (s : Stop) : Stop :=
  { s with distanceFromCenter := some (dist c s.location) }

/-- The keep-predicate of the `localConstraints` fix. -/
def lcKeep (dist : DistFn) (c : Location) (s : Stop) : Bool :=
  decide (dist c s.location ≤ 3) || s.isExplicitRequest || s.isPlaceholder || s.userSpecified

theorem applyFix_localConstraints_stops (dist : DistFn) (c : Location) (it : Itinerary)
    (hne : it.stops.isEmpty = false) :
    (applyFix dist (some c) it .localConstraints).stops =
      sortByOrder ((it.stops.map (lcEnrich dist c)).filter (lcKeep dist c)) := by
  unfold applyFix lcEnrich lcKeep
  rw [hne]
  dsimp only
  split <;> rfl

theorem applyFix_localConstraints_warning (dist : DistFn) (c : Location) (it : Itinerary)
    (hne : it.stops.isEmpty = false) :
    (applyFix dist (some c) it .localConstraints).distanceWarning = it.distanceWarning := by
  unfold applyFix
  rw [hne]
  dsimp only
  split <;> rfl

theorem sortByOrder_perm (l : List Stop) : List.Perm (sortByOrder l) l :=
  List.mergeSort_perm l _

theorem mem_sortByOrder {l : List Stop} {t : Stop} : t ∈ sortByOrder l ↔ t ∈ l :=
  (sortByOrder_perm l).mem_iff

theorem length_sortByOrder (l : List Stop) : (sortByOrder l).length = l.length :=
  (sortByOrder_perm l).length_eq

/-- A single repair keeps every explicit-request stop: some stop with the
same id and the explicit flag still set survives the fix.  Distinct ids are
needed because the local `distance` fix removes its victim by id. -/
theorem applyFix_explicit_survives (dist : DistFn) (ctxLoc : Option Location)
    (it : Itinerary) (i : IssueType) (hnd : (it.stops.map (·.id)).Nodup)
    (s : Stop) (hs : s ∈ it.stops) (hx : s.isExplicitRequest = true) :
    ∃ s' ∈ (applyFix dist ctxLoc it i).stops, s'.id = s.id ∧ s'.isExplicitRequest = true := by
  cases i with
  | localConstraints =>
    cases hc : ctxLoc with
    | none => exact ⟨s, by unfold applyFix; exact hs, rfl, hx⟩
    | some c =>
      cases he : it.stops.isEmpty with
      | true => exact ⟨s, by unfold applyFix; rw [he]; exact hs, rfl, hx⟩
      | false =>
        rw [applyFix_localConstraints_stops dist c it he]
        refine ⟨lcEnrich dist c s, ?_, rfl, hx⟩
        have h2 : lcEnrich dist c s ∈ (it.stops.map (lcEnrich dist c)).filter (lcKeep dist c) := by
          refine List.mem_filter.2 ⟨List.mem_map.2 ⟨s, hs, rfl⟩, ?_⟩
          simp [lcKeep, lcEnrich, hx]
        exact (List.mergeSort_perm _ _).mem_iff.2 h2
  | distance =>
    unfold applyFix
    by_cases hl : it.isLocalSearch <;> simp only [hl]
    · by_cases he : it.stops.isEmpty <;> simp only [he]
      · exact ⟨s, hs, rfl, hx⟩
      · by_cases ha : it.stops.all explicitFlag <;> simp only [ha]
        · exact ⟨s, hs, rfl, hx⟩
        · rcases hnr : it.stops.filter (fun t => !explicitFlag t) with _ | ⟨x, xs⟩
          · simp only [hnr]; exact ⟨s, hs, rfl, hx⟩
          · cases hc : ctxLoc with
            | none => simp only [hnr]; exact ⟨s, hs, rfl, hx⟩
            | some c =>
              simp only [hnr]
              refine ⟨s, List.mem_filter.2 ⟨hs, ?_⟩, rfl, hx⟩
              have hrmem : pickFurthest dist c x xs ∈ x :: xs := pickFurthest_mem dist c x xs
              have hrmem2 : pickFurthest dist c x xs ∈ it.stops := by
                rw [← hnr] at hrmem
                exact (List.mem_filter.1 hrmem).1
              have hrflag : explicitFlag (pickFurthest dist c x xs) = false := by
                have hrm := pickFurthest_mem dist c x xs
                rw [← hnr] at hrm
                have h4 := (List.mem_filter.1 hrm).2
                simpa using h4
              have hneq : s.id ≠ (pickFurthest dist c x xs).id := by
                intro hid
                have heq := List.inj_on_of_nodup_map hnd hs hrmem2 hid
                rw [heq] at hx
                have := explicitFlag_of_explicit hx
                rw [this] at hrflag
                exact Bool.true_eq_false.mp hrflag
              simpa using hneq
    · by_cases he : it.stops.isEmpty <;> simp only [he]
      · exact ⟨s, hs, rfl, hx⟩
      · by_cases ha : it.stops.all explicitFlag <;> simp only [ha]
        · exact ⟨s, hs, rfl, hx⟩
        · rcases hnr : it.stops.filter (fun t => !explicitFlag t) with _ | ⟨x, xs⟩
          · simp only [hnr]; exact ⟨s, hs, rfl, hx⟩
          · simp only [hnr]
            refine ⟨s, ?_, rfl, hx⟩
            exact mem_removeLastSat _ _ s hs (by simp [explicitFlag_of_explicit hx])
  | timing =>
    unfold applyFix
    refine ⟨s, List.mem_filter.2 ⟨hs, ?_⟩, rfl, hx⟩
    simp [explicitFlag_of_explicit hx]
  | variety => exact ⟨s, hs, rfl, hx⟩
  | completeness => exact ⟨s, hs, rfl, hx⟩
  | feasibility => exact ⟨s, hs, rfl, hx⟩

theorem attemptFixes_explicit_survives (dist : DistFn) (ctxLoc : Option Location)
    (it : Itinerary) (issues : List IssueType) (hnd : (it.stops.map (·.id)).Nodup)
    (s : Stop) (hs : s ∈ it.stops) (hx : s.isExplicitRequest = true) :
    ∃ s' ∈ (attemptFixes dist ctxLoc it issues).stops,
      s'.id = s.id ∧ s'.isExplicitRequest = true := by
  unfold attemptFixes
  induction issues generalizing it s with
  | nil => exact ⟨s, hs, rfl, hx⟩
  | cons i rest ih =>
    simp only [List.foldl_cons]
    obtain ⟨s1, hs1, hid1, hx1⟩ := applyFix_explicit_survives dist ctxLoc it i hnd s hs hx
    have hnd1 : ((applyFix dist ctxLoc it i).stops.map (·.id)).Nodup := by
      have hk := applyFix_key_subperm dist ctxLoc it i
      have hids := subperm_map (fun k => k.1) hk
      have e1 : ∀ l : List Stop, (l.map stopKey).map (fun k => k.1) = l.map (·.id) := by
        intro l; rw [List.map_map]; rfl
      rw [e1, e1] at hids
      exact nodup_of_subperm hids hnd
    obtain ⟨s2, hs2, hid2, hx2⟩ := ih (applyFix dist ctxLoc it i) hnd1 s1 hs1 hx1
    exact ⟨s2, hs2, hid2.trans hid1, hx2⟩

theorem applyFix_warning_mono (dist : DistFn) (ctxLoc : Option Location)
    (it : Itinerary) (i : IssueType) (h : it.distanceWarning = true) :
    (applyFix dist ctxLoc it i).distanceWarning = true := by
  cases i with
  | localConstraints =>
    cases hc : ctxLoc with
    | none => unfold applyFix; exact h
    | some c =>
      cases he : it.stops.isEmpty with
      | true => unfold applyFix; rw [he]; exact h
      | false => rw [applyFix_localConstraints_warning dist c it he]; exact h
  | distance =>
    unfold applyFix
    by_cases hl : it.isLocalSearch <;> simp only [hl] <;>
      by_cases he : it.stops.isEmpty <;> simp only [he]
    · exact h
    · by_cases ha : it.stops.all explicitFlag <;> simp only [ha]
      · rfl
      · rcases hnr : it.stops.filter (fun t => !explicitFlag t) with _ | ⟨x, xs⟩
        · simp only [hnr]; exact h
        · cases hc : ctxLoc with
          | none => simp only [hnr]; exact h
          | some c => simp only [hnr]; exact h
    · exact h
    · by_cases ha : it.stops.all explicitFlag <;> simp only [ha]
      · rfl
      · rcases hnr : it.stops.filter (fun t => !explicitFlag t) with _ | ⟨x, xs⟩
        · simp only [hnr]; rfl
        · simp only [hnr]; exact h
  | timing => unfold applyFix; exact h
  | variety => unfold applyFix; exact h
  | completeness => unfold applyFix; exact h
  | feasibility => unfold applyFix; exact h

theorem attemptFixes_warning_mono (dist : DistFn) (ctxLoc : Option Location)
    (it : Itinerary) (issues : List IssueType) (h : it.distanceWarning = true) :
    (attemptFixes dist ctxLoc it issues).distanceWarning = true := by
  unfold attemptFixes
  induction issues generalizing it with
  | nil => exact h
  | cons i rest ih =>
    simp only [List.foldl_cons]
    exact ih _ (applyFix_warning_mono dist ctxLoc it i h)

/-- When every stop carries an explicit flag, a fix never removes a stop:
the all-explicit property and the stop count are preserved. -/
theorem applyFix_allExplicit_preserved (dist : DistFn) (ctxLoc : Option Location)
    (it : Itinerary) (i : IssueType) (hall : it.stops.all explicitFlag = true) :
    (applyFix dist ctxLoc it i).stops.all explicitFlag = true ∧
    (applyFix dist ctxLoc it i).stops.length = it.stops.length := by
  cases i with
  | localConstraints =>
    cases hc : ctxLoc with
    | none => unfold applyFix; exact ⟨hall, rfl⟩
    | some c =>
      cases he : it.stops.isEmpty with
      | true => unfold applyFix; rw [he]; exact ⟨hall, rfl⟩
      | false =>
        rw [applyFix_localConstraints_stops dist c it he]
        have hflagmap : ∀ t ∈ it.stops.map (lcEnrich dist c), explicitFlag t = true := by
          intro t ht
          obtain ⟨u, hu, rfl⟩ := List.mem_map.1 ht
          have := List.all_eq_true.1 hall u hu
          simpa [explicitFlag, lcEnrich] using this
        have hfil : (it.stops.map (lcEnrich dist c)).filter (lcKeep dist c) =
            it.stops.map (lcEnrich dist c) := by
          refine List.filter_eq_self.2 ?_
          intro t ht
          have hft := hflagmap t ht
          simp only [explicitFlag] at hft
          simp only [lcKeep]
          rcases Bool.or_eq_true_iff.1 hft with h1 | h1
          · rcases Bool.or_eq_true_iff.1 h1 with h2 | h2
            · simp [h2]
            · simp [h2]
          · simp [h1]
        rw [hfil]
        constructor
        · refine List.all_eq_true.2 ?_
          intro t ht
          exact hflagmap t (mem_sortByOrder.1 ht)
        · rw [length_sortByOrder, List.length_map]
  | distance =>
    unfold applyFix
    by_cases hl : it.isLocalSearch <;> simp only [hl] <;>
      by_cases he : it.stops.isEmpty <;> simp only [he]
    · exact ⟨hall, rfl⟩
    · simp only [hall]; exact ⟨hall, rfl⟩
    · exact ⟨hall, rfl⟩
    · simp only [hall]; exact ⟨hall, rfl⟩
  | timing =>
    unfold applyFix
    have hfil : it.stops.filter (fun s => !s.timingConflict || explicitFlag s) = it.stops := by
      refine List.filter_eq_self.2 ?_
      intro t ht
      have := List.all_eq_true.1 hall t ht
      simp [this]
    dsimp only
    rw [hfil]
    exact ⟨hall, rfl⟩
  | variety => unfold applyFix; exact ⟨hall, rfl⟩
  | completeness => unfold applyFix; exact ⟨hall, rfl⟩
  | feasibility => unfold applyFix; exact ⟨hall, rfl⟩

/-- The all-explicit `distance` fix sets `distanceWarning` in both the local
and the non-local branch. -/
theorem applyFix_distance_sets_warning (dist : DistFn) (ctxLoc : Option Location)
    (it : Itinerary) (hne : it.stops.isEmpty = false)
    (hall : it.stops.all explicitFlag = true) :
    (applyFix dist ctxLoc it .distance).distanceWarning = true := by
  unfold applyFix
  by_cases hl : it.isLocalSearch <;> simp [hl, hne, hall]

theorem attemptFixes_sets_warning (dist : DistFn) (ctxLoc : Option Location)
    (it : Itinerary) (issues : List IssueType) (hd : IssueType.distance ∈ issues)
    (hne : it.stops.isEmpty = false) (hall : it.stops.all explicitFlag = true) :
    (attemptFixes dist ctxLoc it issues).distanceWarning = true := by
  induction issues generalizing it with
  | nil => cases hd
  | cons i rest ih =>
    unfold attemptFixes
    simp only [List.foldl_cons]
    by_cases hi : i = IssueType.distance
    · subst hi
      have hw := applyFix_distance_sets_warning dist ctxLoc it hne hall
      exact attemptFixes_warning_mono dist ctxLoc _ rest hw
    · have hd2 : IssueType.distance ∈ rest := by
        rcases List.mem_cons.1 hd with h | h
        · exact absurd h.symm hi
        · exact h
      obtain ⟨hall2, hlen2⟩ := applyFix_allExplicit_preserved dist ctxLoc it i hall
      have hiff : ∀ l : List Stop, l.isEmpty = false ↔ 0 < l.length := by
        intro l; cases l <;> simp
      have hne2 : (applyFix dist ctxLoc it i).stops.isEmpty = false := by
        rw [hiff] at hne ⊢
        rw [hlen2]
        exact hne
      exact ih (applyFix dist ctxLoc it i) hd2 hne2 hall2


/-- Claim C8: the quality score returned by the quality gate equals the
number of validation checks that passed divided by the total number of
checks (six), computed on the validation results of the itinerary as it was
before any repair was applied (the score expression only mentions the input
itinerary, never the repaired one), and the score lies in [0, 1]. -/
theorem C8_quality_score_pre_repair (dist : DistFn) (ctx : AgentContext) (it : Itinerary) :
    (QCprocess dist ctx it).qualityScore =
      (((validationList dist ctx it).filter (·.2)).length : ℚ) / 6 ∧
    0 ≤ (QCprocess dist ctx it).qualityScore ∧
    (QCprocess dist ctx it).qualityScore ≤ 1 := by
  have hlen : ((validationList dist ctx it).length : ℚ) = 6 := by
    simp [validationList]
  have hle : ((validationList dist ctx it).filter (·.2)).length ≤ 6 := by
    have := List.length_filter_le (·.2) (validationList dist ctx it)
    simpa [validationList] using this
  have heq : (QCprocess dist ctx it).qualityScore =
      (((validationList dist ctx it).filter (·.2)).length : ℚ) / 6 := by
    show calculateQualityScore dist ctx it = _
    unfold calculateQualityScore
    rw [hlen]
  refine ⟨heq, ?_, ?_⟩
  · rw [heq]
    positivity
  · rw [heq]
    rw [div_le_one (by norm_num)]
    exact_mod_cast hle

/-- Claim C1, amended.  For every itinerary, repair pass and issue list:
(1) a stop whose explicit-request flag is true is never removed by any
repair â some stop with the same id and the flag still set survives
`attemptFixes` (stop ids must be distinct, because the local distance fix
removes its victim by id); and (2) when the `distance` check failed and
every stop is exempt (explicit request, placeholder, or user specified),
the repaired itinerary carries `distanceWarning = true`.  The amendment
with respect to the original claim: the `localConstraints` repair preserves
over-cap explicit stops but does **not** set `distanceWarning` â only the
`distance` repair sets the flag (see the counterexample). -/
theorem C1_explicit_request_immunity (dist : DistFn) (ctxLoc : Option Location)
    (it : Itinerary) (issues : List IssueType)
    (hnd : (it.stops.map (·.id)).Nodup) :
    (∀ s ∈ it.stops, s.isExplicitRequest = true →
      ∃ s' ∈ (attemptFixes dist ctxLoc it issues).stops,
        s'.id = s.id ∧ s'.isExplicitRequest = true) ∧
    (IssueType.distance ∈ issues → it.stops.isEmpty = false →
      it.stops.all explicitFlag = true →
      (attemptFixes dist ctxLoc it issues).distanceWarning = true) :=
  ⟨fun s hs hx => attemptFixes_explicit_survives dist ctxLoc it issues hnd s hs hx,
   fun hd hne hall => attemptFixes_sets_warning dist ctxLoc it issues hd hne hall⟩

/-- Witness for C1 at a concrete input: a single explicit-request stop and a
`distance` issue; the stop survives and the warning flag is set. -/
theorem C1_witness :
    (∀ s ∈ itExplicitFar.stops, s.isExplicitRequest = true →
      ∃ s' ∈ (attemptFixes flatDist (some ⟨0, 0⟩) itExplicitFar [IssueType.distance]).stops,
        s'.id = s.id ∧ s'.isExplicitRequest = true) ∧
    (IssueType.distance ∈ [IssueType.distance] → itExplicitFar.stops.isEmpty = false →
      itExplicitFar.stops.all explicitFlag = true →
      (attemptFixes flatDist (some ⟨0, 0⟩) itExplicitFar [IssueType.distance]).distanceWarning
        = true) :=
  C1_explicit_request_immunity flatDist (some ⟨0, 0⟩) itExplicitFar [IssueType.distance]
    (by decide)

/-- Counterexample refuting C1 as stated: on `itExplicitFar` the quality
gate reports exactly the `localConstraints` issue (its single stop is an
explicit request 5 km from the origin, beyond the 3 km cap); the repair
preserves the stop but the returned itinerary has `distanceWarning = false`,
although the claim requires the flag to be set whenever an over-cap explicit
stop cannot be removed. -/
theorem C1_counterexample :
    flatDist ⟨0, 0⟩ stopExplicitFar.location > 3 ∧
    (QCprocess flatDist qcCtx0 itExplicitFar).issues = [IssueType.localConstraints] ∧
    (QCprocess flatDist qcCtx0 itExplicitFar).itinerary.stops.map (·.id) = ["e1"] ∧
    (QCprocess flatDist qcCtx0 itExplicitFar).itinerary.distanceWarning = false := by
  have ht : (decide ("t" = "") : Bool) = false := rfl
  have hd : (decide ("d" = "") : Bool) = false := rfl
  refine ⟨?_, ?_, ?_, ?_⟩ <;>
  norm_num [QCprocess, issuesOf, validationList, validateTiming, validateTimingAux,
    validateVariety, validateDistance, maxDistanceFor, validateLocalConstraints,
    validateFeasibility, maxStopsFor, validateCompleteness, attemptFixes, applyFix,
    itExplicitFar, qcCtx0, stopExplicitFar, flatDist, sortByOrder, maxConsecWalk,
    explicitFlag, List.filter, List.mergeSort, ht, hd]



/-! ### Route enrichment facts -/

theorem routeEnrich_ids (dist : DistFn) :
    ∀ (l : List Stop) (prev : Option Stop) (idx : ℕ),
      (routeEnrich dist prev idx l).map (·.id) = l.map (·.id) := by
  intro l
  induction l with
  | nil => intro prev idx; cases prev <;> rfl
  | cons s rest ih =>
    intro prev idx
    cases prev with
    | none => simp only [routeEnrich, List.map_cons, ih]
    | some p => simp only [routeEnrich, List.map_cons, ih]

theorem routeEnrich_orders (dist : DistFn) :
    ∀ (l : List Stop) (prev : Option Stop) (idx : ℕ),
      (routeEnrich dist prev idx l).map (·.order) = List.range' (idx + 1) l.length := by
  intro l
  induction l with
  | nil => intro prev idx; cases prev <;> rfl
  | cons s rest ih =>
    intro prev idx
    cases prev with
    | none =>
      simp only [routeEnrich, List.map_cons, ih, List.length_cons, List.range'_succ]
    | some p =>
      simp only [routeEnrich, List.map_cons, ih, List.length_cons, List.range'_succ]

theorem routeEnrich_dfp (dist : DistFn) :
    ∀ (l : List Stop) (p : Stop) (idx : ℕ),
      (routeEnrich dist (some p) idx l).map (·.distanceFromPrevious) =
        ((p :: l).zip l).map (fun q => dist q.1.location q.2.location) := by
  intro l
  induction l with
  | nil => intro p idx; rfl
  | cons s rest ih =>
    intro p idx
    simp only [routeEnrich, List.map_cons, List.zip_cons_cons, ih]

theorem calculateRoute_dfp_sum (dist : DistFn) (ctxLoc : Option Location)
    (stops : List Stop) (b : Bool) :
    ((calculateRoute dist ctxLoc stops b).stops.map (·.distanceFromPrevious)).sum =
      (consecDists dist stops).sum := by
  show ((routeEnrich dist none 0 stops).map (·.distanceFromPrevious)).sum = _
  cases stops with
  | nil => rfl
  | cons s rest =>
    have h1 : (routeEnrich dist none 0 (s :: rest)).map (·.distanceFromPrevious) =
        0 :: ((s :: rest).zip rest).map (fun q => dist q.1.location q.2.location) := by
      simp only [routeEnrich, List.map_cons, routeEnrich_dfp]
    rw [h1]
    simp [consecDists]

theorem calculateRoute_dfp_nonneg (dist : DistFn) (ctxLoc : Option Location)
    (stops : List Stop) (b : Bool) (hd : ∀ a c : Location, 0 ≤ dist a c) :
    ∀ s ∈ (calculateRoute dist ctxLoc stops b).stops, 0 ≤ s.distanceFromPrevious := by
  show ∀ s ∈ routeEnrich dist none 0 stops, _
  cases stops with
  | nil => intro s hs; cases hs
  | cons s0 rest =>
    intro s hs
    have hgen : ∀ (l : List Stop) (p : Stop) (idx : ℕ) (t : Stop),
        t ∈ routeEnrich dist (some p) idx l → 0 ≤ t.distanceFromPrevious := by
      intro l
      induction l with
      | nil => intro p idx t ht; cases ht
      | cons u us ih =>
        intro p idx t ht
        simp only [routeEnrich] at ht
        rcases List.mem_cons.1 ht with rfl | ht2
        · exact hd _ _
        · exact ih _ _ _ ht2
    simp only [routeEnrich] at hs
    rcases List.mem_cons.1 hs with rfl | hs2
    · norm_num
    · exact hgen rest s0 1 s hs2

/-- Claim C9, amended.  For every assembled route over any distance function:
the reported total distance equals the sum of the consecutive pairwise
distances **rounded to the nearest 0.1 km** (the source applies
`Math.round(totalDistance * 10) / 10`, so the reported value may differ from
the exact sum by up to 0.05 km — more than floating-point tolerance); the
unrounded sum equals the sum of the stops' `distanceFromPrevious` fields;
and every stop's `distanceFromPrevious` is nonnegative whenever the distance
function is (the haversine is). -/
theorem C9_total_distance_amended (dist : DistFn) (ctxLoc : Option Location)
    (stops : List Stop) (b : Bool) (hd : ∀ a c : Location, 0 ≤ dist a c) :
    (calculateRoute dist ctxLoc stops b).totalDistance =
      roundTenth ((consecDists dist stops).sum) ∧
    ((calculateRoute dist ctxLoc stops b).stops.map (·.distanceFromPrevious)).sum =
      (consecDists dist stops).sum ∧
    ∀ s ∈ (calculateRoute dist ctxLoc stops b).stops, 0 ≤ s.distanceFromPrevious :=
  ⟨rfl, calculateRoute_dfp_sum dist ctxLoc stops b,
    calculateRoute_dfp_nonneg dist ctxLoc stops b hd⟩

/-- Counterexample refuting C9 as stated: with two stops 0.26 km apart the
sum of consecutive distances is 0.26 km, but the route reports
`totalDistance = 0.3` (rounded to the nearest 0.1 km), off by 0.04 km —
far beyond floating-point tolerance. -/
theorem C9_counterexample :
    (consecDists flatDist [stopN0, stopN1]).sum = 0.26 ∧
    (calculateRoute flatDist (some ⟨0, 0⟩) [stopN0, stopN1] false).totalDistance = 0.3 ∧
    (calculateRoute flatDist (some ⟨0, 0⟩) [stopN0, stopN1] false).totalDistance ≠
      (consecDists flatDist [stopN0, stopN1]).sum := by
  have h1 : (consecDists flatDist [stopN0, stopN1]).sum = 0.26 := by
    norm_num [consecDists, stopN0, stopN1, flatDist]
  have h2 : (calculateRoute flatDist (some ⟨0, 0⟩) [stopN0, stopN1] false).totalDistance
      = 0.3 := by
    show roundTenth (consecDists flatDist [stopN0, stopN1]).sum = 0.3
    rw [h1]
    norm_num [roundTenth, round_eq]
  refine ⟨h1, h2, ?_⟩
  rw [h1, h2]
  norm_num

/-- Witness for C9 on the same concrete pair of stops. -/
theorem C9_witness :
    (calculateRoute flatDist (some ⟨0, 0⟩) [stopN0, stopN1] false).totalDistance =
      roundTenth ((consecDists flatDist [stopN0, stopN1]).sum) ∧
    ((calculateRoute flatDist (some ⟨0, 0⟩) [stopN0, stopN1] false).stops.map
      (·.distanceFromPrevious)).sum = (consecDists flatDist [stopN0, stopN1]).sum ∧
    ∀ s ∈ (calculateRoute flatDist (some ⟨0, 0⟩) [stopN0, stopN1] false).stops,
      0 ≤ s.distanceFromPrevious :=
  C9_total_distance_amended flatDist (some ⟨0, 0⟩) [stopN0, stopN1] false
    (fun a c => by simp only [flatDist]; positivity)

/-! ### Order contiguity (C2) -/

theorem mapIdx_order_range (l : List Stop) :
    (l.mapIdx (fun i s => { s with order := i + 1 })).map (·.order) =
      List.range' 1 l.length := by
  rw [List.mapIdx_eq_enum_map, List.map_map]
  have h1 : ((fun s : Stop => s.order) ∘
      Function.uncurry (fun i s => { s with order := i + 1 })) =
      (fun p : ℕ × Stop => p.1 + 1) := by
    funext p; rfl
  rw [h1]
  have h2 : (l.enum).map (fun p => p.1 + 1) =
      ((l.enum).map Prod.fst).map (fun i => i + 1) := by
    rw [List.map_map]; rfl
  rw [h2, List.enum_map_fst, List.range'_eq_map_range]
  simp [Nat.add_comm]

theorem renumberStops_orders (l : List Stop) :
    (renumberStops l).map (·.order) = List.range' 1 l.length := by
  unfold renumberStops
  rw [mapIdx_order_range, length_sortByOrder]

theorem calculateRoute_orders (dist : DistFn) (ctxLoc : Option Location)
    (stops : List Stop) (b : Bool) :
    (calculateRoute dist ctxLoc stops b).stops.map (·.order) =
      List.range' 1 stops.length := by
  show (routeEnrich dist none 0 stops).map (·.order) = _
  exact routeEnrich_orders dist stops none 0

/-- Claim C2, amended.  Stop orders are the contiguous sequence `1..N`
after the coordinator's search-phase renumbering and after route assembly;
but the quality-gate repair pass never renumbers: each surviving stop keeps
its old `order` field (the multiset of orders of the repaired stops is a
sub-permutation of the input's), so an itinerary returned after a repair
that removed stops has gaps in its `order` sequence (see the
counterexample). -/
theorem C2_order_contiguity_amended :
    (∀ l : List Stop, (renumberStops l).map (·.order) = List.range' 1 l.length) ∧
    (∀ (dist : DistFn) (ctxLoc : Option Location) (stops : List Stop) (b : Bool),
      (calculateRoute dist ctxLoc stops b).stops.map (·.order) =
        List.range' 1 stops.length) ∧
    (∀ (dist : DistFn) (ctxLoc : Option Location) (it : Itinerary)
      (issues : List IssueType),
      List.Subperm ((attemptFixes dist ctxLoc it issues).stops.map (·.order))
        (it.stops.map (·.order))) := by
  refine ⟨renumberStops_orders, calculateRoute_orders, ?_⟩
  intro dist ctxLoc it issues
  have hk := attemptFixes_key_subperm dist ctxLoc it issues
  have h2 := subperm_map (fun k => k.2.1) hk
  have e1 : ∀ l : List Stop, (l.map stopKey).map (fun k => k.2.1) = l.map (·.order) := by
    intro l; rw [List.map_map]; rfl
  rw [e1, e1] at h2
  exact h2

/-- Counterexample refuting C2 as stated: after the distance repair removes
the middle stop, the returned itinerary's orders are `[1, 3]`, not the
contiguous `1..2` the claim requires. -/
theorem C2_counterexample :
    (QCprocess flatDist qcCtx0 itOrders).issues = [IssueType.distance] ∧
    (QCprocess flatDist qcCtx0 itOrders).itinerary.stops.map (·.order) = [1, 3] ∧
    (QCprocess flatDist qcCtx0 itOrders).itinerary.stops.map (·.order) ≠
      List.range' 1 (QCprocess flatDist qcCtx0 itOrders).itinerary.stops.length := by
  have ht : (decide ("t" = "") : Bool) = false := rfl
  have hd : (decide ("d" = "") : Bool) = false := rfl
  refine ⟨?_, ?_, ?_⟩ <;>
  norm_num [QCprocess, issuesOf, validationList, validateTiming, validateTimingAux,
    validateVariety, validateDistance, maxDistanceFor, validateLocalConstraints,
    validateFeasibility, maxStopsFor, validateCompleteness, attemptFixes, applyFix,
    itOrders, qcCtx0, stopO1, stopO2, stopO3, flatDist, sortByOrder, maxConsecWalk,
    explicitFlag, removeLastSat, List.filter, List.mergeSort, List.eraseP, List.range',
    ht, hd]


/-! ### Route assembly preserves its input (C5) -/

theorem calculateRoute_ids (dist : DistFn) (ctxLoc : Option Location)
    (stops : List Stop) (b : Bool) :
    (calculateRoute dist ctxLoc stops b).stops.map (·.id) = stops.map (·.id) := by
  show (routeEnrich dist none 0 stops).map (·.id) = _
  exact routeEnrich_ids dist stops none 0

/-- Claim C5, amended.  The route-construction step `calculateRoute` keeps
every input stop (same ids in the same order) and, for local searches,
attaches the distance warning exactly when some stop is more than 3 km from
the origin; the preserve-order path of `process` keeps all stops as well.
The amendment: in local mode with heuristic optimization enabled
(`preserveOrder` false), the optimizer itself drops candidate stops farther
than 2-2.5 km from the center *before* route construction, so the process
as a whole can remove stops (see the counterexample). -/
theorem C5_route_keeps_stops_amended (dist : DistFn) (ctx : AgentContext)
    (ctxLoc : Option Location) (stops : List Stop) (b : Bool) (p : RoutePayload) :
    ((calculateRoute dist ctxLoc stops b).stops.map (·.id) = stops.map (·.id)) ∧
    ((calculateRoute dist ctxLoc stops true).distanceWarning = true ↔
      maxDistFromCenter dist (ctxLoc.getD defaultCenter) stops > 3) ∧
    (p.preserveOrder = true → p.allStops.isEmpty = false →
      List.Perm ((RTprocess dist ctx p).stops.map (·.id)) (p.allStops.map (·.id))) := by
  refine ⟨calculateRoute_ids dist ctxLoc stops b, ?_, ?_⟩
  · simp [calculateRoute]
  · intro hp hne
    have hrw : RTprocess dist ctx p =
        calculateRoute dist ctx.location (sortByOrder p.allStops) p.isLocalSearch := by
      unfold RTprocess
      simp [hne, hp]
    rw [hrw, calculateRoute_ids]
    exact (sortByOrder_perm p.allStops).map (·.id)

/-- Witness for C5: the preserve-order path keeps both stops. -/
theorem C5_witness :
    ((calculateRoute flatDist (some ⟨0, 0⟩) [stopVA, stopVB] true).stops.map (·.id) =
      [stopVA, stopVB].map (·.id)) ∧
    ((calculateRoute flatDist (some ⟨0, 0⟩) [stopVA, stopVB] true).distanceWarning = true ↔
      maxDistFromCenter flatDist ((some ⟨0, 0⟩ : Option Location).getD defaultCenter)
        [stopVA, stopVB] > 3) ∧
    (payloadC5p.preserveOrder = true → payloadC5p.allStops.isEmpty = false →
      List.Perm ((RTprocess flatDist rtCtx0 payloadC5p).stops.map (·.id))
        (payloadC5p.allStops.map (·.id))) :=
  C5_route_keeps_stops_amended flatDist rtCtx0 (some ⟨0, 0⟩) [stopVA, stopVB] true payloadC5p

/-- Counterexample refuting C5 as stated: a local-search assembly without
order preservation where the second stop sits 10 km from the origin.  The
local optimizer keeps only the seed stop (the one closest to the center) and
silently drops the other: the returned route has one stop while the input
had two — the route stage does remove stops in this mode. -/
theorem C5_counterexample :
    (RTprocess flatDist rtCtx0 payloadC5).stops.map (·.id) = ["a"] ∧
    payloadC5.allStops.length = 2 := by
  constructor
  · norm_num [RTprocess, payloadC5, rtCtx0, stopVA, stopVB, optimizeLocalRoute,
      optimizeByDistanceLocal, obdlGo, obdlPick, findNearestLocal, calculateRoute,
      routeEnrich, flatDist, List.filter, List.mergeSort_nil, List.eraseIdx, List.enum]
  · rfl


/-! ### Worst-offender removal (C4) -/

theorem pickFurthest_max (dist : DistFn) (c : Location) (x : Stop) (xs : List Stop) :
    ∀ t ∈ x :: xs, dist c t.location ≤ dist c (pickFurthest dist c x xs).location := by
  unfold pickFurthest
  induction xs generalizing x with
  | nil =>
    intro t ht
    rcases List.mem_cons.1 ht with rfl | h
    · simp
    · cases h
  | cons y ys ih =>
    intro t ht
    simp only [List.foldl_cons]
    have hz : dist c x.location ≤
        dist c (if dist c y.location > dist c x.location then y else x).location ∧
        dist c y.location ≤
        dist c (if dist c y.location > dist c x.location then y else x).location := by
      by_cases h : dist c y.location > dist c x.location
      · rw [if_pos h]; exact ⟨le_of_lt h, le_refl _⟩
      · rw [if_neg h]; exact ⟨le_refl _, le_of_not_lt h⟩
    have hseed := ih (if dist c y.location > dist c x.location then y else x)
      _ (List.mem_cons_self _ _)
    rcases List.mem_cons.1 ht with rfl | h1
    · exact hz.1.trans hseed
    · rcases List.mem_cons.1 h1 with rfl | h2
      · exact hz.2.trans hseed
      · exact ih _ t (List.mem_cons_of_mem _ h2)

theorem filter_ne_id_length {l : List Stop} {r : Stop}
    (hnd : (l.map (·.id)).Nodup) (hr : r ∈ l) :
    (l.filter (fun s => s.id ≠ r.id)).length + 1 = l.length := by
  induction l with
  | nil => cases hr
  | cons a as ih =>
    rw [List.map_cons, List.nodup_cons] at hnd
    obtain ⟨ha, hnd2⟩ := hnd
    by_cases hra : r = a
    · subst hra
      have hall : as.filter (fun s => s.id ≠ r.id) = as := by
        refine List.filter_eq_self.2 ?_
        intro s hs
        simp only [ne_eq, decide_eq_true_eq]
        intro h
        exact ha (h ▸ List.mem_map_of_mem (·.id) hs)
      have hfalse : (decide (r.id ≠ r.id)) = false := by simp
      simp [List.filter_cons, hfalse, hall]
      intro a has h
      exact ha (h ▸ List.mem_map_of_mem (·.id) has)
    · have hr2 : r ∈ as := by
        rcases List.mem_cons.1 hr with h | h
        · exact absurd h hra
        · exact h
      have hne : (decide (a.id ≠ r.id)) = true := by
        simp only [ne_eq, decide_eq_true_eq]
        intro h
        exact ha (h ▸ List.mem_map_of_mem (·.id) hr2)
      have hih := ih hnd2 hr2
      simp only [List.filter_cons, hne, if_true, List.length_cons]
      omega

theorem removeLastSat_decomp (p : Stop → Bool) (l : List Stop)
    (h : ∃ a ∈ l, p a = true) :
    ∃ l1 r l2, p r = true ∧ (∀ b ∈ l2, p b = false) ∧ l = l1 ++ r :: l2 ∧
      removeLastSat p l = l1 ++ l2 := by
  obtain ⟨a, ha, hpa⟩ := h
  obtain ⟨r, m1, m2, hm1, hpr, hl, herase⟩ :=
    List.exists_of_eraseP (List.mem_reverse.2 ha) hpa
  refine ⟨m2.reverse, r, m1.reverse, hpr, ?_, ?_, ?_⟩
  · intro b hb
    have hb2 : b ∈ m1 := List.mem_reverse.1 hb
    have := hm1 b hb2
    simpa using this
  · have : l.reverse.reverse = (m1 ++ r :: m2).reverse := by rw [← hl]
    rw [List.reverse_reverse] at this
    rw [this]
    simp
  · unfold removeLastSat
    rw [herase]
    simp

theorem applyFix_distance_local_stops (dist : DistFn) (c : Location) (it : Itinerary)
    (x : Stop) (xs : List Stop)
    (hl : it.isLocalSearch = true) (hne : it.stops.isEmpty = false)
    (hall : it.stops.all explicitFlag = false)
    (hnr : it.stops.filter (fun s => !explicitFlag s) = x :: xs) :
    (applyFix dist (some c) it .distance).stops =
      it.stops.filter (fun s => s.id ≠ (pickFurthest dist c x xs).id) := by
  unfold applyFix
  simp only [hl, hne, hall, hnr]
  rfl

theorem applyFix_distance_nonlocal_stops (dist : DistFn) (ctxLoc : Option Location)
    (it : Itinerary) (x : Stop) (xs : List Stop)
    (hl : it.isLocalSearch = false) (hne : it.stops.isEmpty = false)
    (hall : it.stops.all explicitFlag = false)
    (hnr : it.stops.filter (fun s => !explicitFlag s) = x :: xs) :
    (applyFix dist ctxLoc it .distance).stops =
      removeLastSat (fun s => !explicitFlag s) it.stops := by
  unfold applyFix
  simp only [hl, hne, hall, hnr]
  rfl

/-- Claim C4, amended.  When the `distance` check fails and a non-exempt
stop exists: in local mode the repair removes exactly one stop — the
furthest-from-origin non-exempt stop (earliest such on ties); in non-local
mode it removes exactly one stop as well, but it is the **last-listed**
non-exempt stop, not the furthest.  The `localConstraints` repair is
different again: it removes **every** non-exempt stop beyond the 3 km cap,
possibly several (see the counterexample). -/
theorem C4_worst_offender_removal_amended (dist : DistFn) (c : Location)
    (it : Itinerary) (hnd : (it.stops.map (·.id)).Nodup) :
    (∀ x xs, it.isLocalSearch = true → it.stops.isEmpty = false →
      it.stops.all explicitFlag = false →
      it.stops.filter (fun s => !explicitFlag s) = x :: xs →
      (applyFix dist (some c) it .distance).stops.length + 1 = it.stops.length ∧
      explicitFlag (pickFurthest dist c x xs) = false ∧
      (∀ t ∈ it.stops, explicitFlag t = false →
        dist c t.location ≤ dist c (pickFurthest dist c x xs).location) ∧
      (applyFix dist (some c) it .distance).stops =
        it.stops.filter (fun s => s.id ≠ (pickFurthest dist c x xs).id)) ∧
    (it.isLocalSearch = false → it.stops.isEmpty = false →
      it.stops.all explicitFlag = false →
      ∃ l1 r l2, explicitFlag r = false ∧ (∀ b ∈ l2, explicitFlag b = true) ∧
        it.stops = l1 ++ r :: l2 ∧
        (applyFix dist (some c) it .distance).stops = l1 ++ l2) ∧
    (it.stops.isEmpty = false →
      List.Perm ((applyFix dist (some c) it .localConstraints).stops.map (·.id))
        ((it.stops.filter (lcKeep dist c)).map (·.id))) := by
  refine ⟨?_, ?_, ?_⟩
  · intro x xs hl hne hall hnr
    have hrloc := applyFix_distance_local_stops dist c it x xs hl hne hall hnr
    have hrmem : pickFurthest dist c x xs ∈ it.stops := by
      have hm := pickFurthest_mem dist c x xs
      rw [← hnr] at hm
      exact (List.mem_filter.1 hm).1
    have hrflag : explicitFlag (pickFurthest dist c x xs) = false := by
      have hm := pickFurthest_mem dist c x xs
      rw [← hnr] at hm
      have := (List.mem_filter.1 hm).2
      simpa using this
    refine ⟨?_, hrflag, ?_, hrloc⟩
    · rw [hrloc]
      exact filter_ne_id_length hnd hrmem
    · intro t ht htf
      have htm : t ∈ x :: xs := by
        rw [← hnr]
        exact List.mem_filter.2 ⟨ht, by simp [htf]⟩
      exact pickFurthest_max dist c x xs t htm
  · intro hl hne hall
    have hex : ∃ a ∈ it.stops, (fun s => !explicitFlag s) a = true := by
      rcases List.all_eq_false.1 hall with ⟨a, ha, hfa⟩
      exact ⟨a, ha, by simp [hfa]⟩
    obtain ⟨l1, r, l2, hpr, hl2, hdecomp, hrem⟩ :=
      removeLastSat_decomp (fun s => !explicitFlag s) it.stops hex
    rcases hnr : it.stops.filter (fun s => !explicitFlag s) with _ | ⟨x, xs⟩
    · exfalso
      obtain ⟨a, ha, hfa⟩ := hex
      have : a ∈ it.stops.filter (fun s => !explicitFlag s) :=
        List.mem_filter.2 ⟨ha, hfa⟩
      rw [hnr] at this
      cases this
    · refine ⟨l1, r, l2, by simpa using hpr, ?_, hdecomp, ?_⟩
      · intro b hb
        have := hl2 b hb
        simpa using this
      · rw [applyFix_distance_nonlocal_stops dist (some c) it x xs hl hne hall hnr, hrem]
  · intro hne
    rw [applyFix_localConstraints_stops dist c it hne]
    have h2 : (it.stops.map (lcEnrich dist c)).filter (lcKeep dist c) =
        (it.stops.filter (lcKeep dist c)).map (lcEnrich dist c) := by
      rw [List.filter_map]
      rfl
    rw [h2]
    refine List.Perm.trans ((sortByOrder_perm _).map _) ?_
    rw [List.map_map]
    exact List.Perm.refl _

/-- Witness for C4 on `itTwoFar` (which has distinct ids and non-exempt
stops in both positions). -/
theorem C4_witness :
    (∀ x xs, itTwoFar.isLocalSearch = true → itTwoFar.stops.isEmpty = false →
      itTwoFar.stops.all explicitFlag = false →
      itTwoFar.stops.filter (fun s => !explicitFlag s) = x :: xs →
      (applyFix flatDist (some ⟨0, 0⟩) itTwoFar .distance).stops.length + 1 =
        itTwoFar.stops.length ∧
      explicitFlag (pickFurthest flatDist ⟨0, 0⟩ x xs) = false ∧
      (∀ t ∈ itTwoFar.stops, explicitFlag t = false →
        flatDist ⟨0, 0⟩ t.location ≤ flatDist ⟨0, 0⟩ (pickFurthest flatDist ⟨0, 0⟩ x xs).location) ∧
      (applyFix flatDist (some ⟨0, 0⟩) itTwoFar .distance).stops =
        itTwoFar.stops.filter (fun s => s.id ≠ (pickFurthest flatDist ⟨0, 0⟩ x xs).id)) ∧
    (itTwoFar.isLocalSearch = false → itTwoFar.stops.isEmpty = false →
      itTwoFar.stops.all explicitFlag = false →
      ∃ l1 r l2, explicitFlag r = false ∧ (∀ b ∈ l2, explicitFlag b = true) ∧
        itTwoFar.stops = l1 ++ r :: l2 ∧
        (applyFix flatDist (some ⟨0, 0⟩) itTwoFar .distance).stops = l1 ++ l2) ∧
    (itTwoFar.stops.isEmpty = false →
      List.Perm ((applyFix flatDist (some ⟨0, 0⟩) itTwoFar .localConstraints).stops.map (·.id))
        ((itTwoFar.stops.filter (lcKeep flatDist ⟨0, 0⟩)).map (·.id))) :=
  C4_worst_offender_removal_amended flatDist ⟨0, 0⟩ itTwoFar (by decide)

/-- Counterexample refuting C4 as stated: on `itTwoFar` the failing check is
`localConstraints`, and its repair removes **two** stops (both far
non-exempt ones), not exactly one. -/
theorem C4_counterexample :
    (QCprocess flatDist qcCtx0 itTwoFar).issues = [IssueType.localConstraints] ∧
    itTwoFar.stops.length = 3 ∧
    (QCprocess flatDist qcCtx0 itTwoFar).itinerary.stops.map (·.id) = ["w1"] ∧
    (QCprocess flatDist qcCtx0 itTwoFar).itinerary.removedStopsCount = 2 := by
  have ht : (decide ("t" = "") : Bool) = false := rfl
  have hd : (decide ("d" = "") : Bool) = false := rfl
  refine ⟨?_, rfl, ?_, ?_⟩ <;>
  norm_num [QCprocess, issuesOf, validationList, validateTiming, validateTimingAux,
    validateVariety, validateDistance, maxDistanceFor, validateLocalConstraints,
    validateFeasibility, maxStopsFor, validateCompleteness, attemptFixes, applyFix,
    itTwoFar, qcCtx0, stopW1, stopW2, stopW3, flatDist, sortByOrder, maxConsecWalk,
    explicitFlag, List.filter, List.mergeSort, ht, hd]


/-! ### Event-term ladder (C3) -/

theorem addBatch_sublist (collected : List TMEvent) (seen : List String)
    (batch : List TMEvent) :
    ∃ post, (addBatch collected seen batch).1 = collected ++ post := by
  induction batch generalizing collected seen with
  | nil => exact ⟨[], by simp [addBatch]⟩
  | cons e es ih =>
    unfold addBatch
    by_cases h : e.id = "" ∨ e.id ∈ seen
    · simp only [if_pos h]
      exact ih collected seen
    · simp only [if_neg h]
      obtain ⟨post, hp⟩ := ih (collected ++ [e]) (seen ++ [e.id])
      exact ⟨e :: post, by simp [hp]⟩

/-- Invariant of the accumulation: distinct nonempty ids, all recorded in
`seen`. -/
theorem addBatch_invariant (batch : List TMEvent) :
    ∀ (collected : List TMEvent) (seen : List String),
    (collected.map (·.id)).Nodup → (∀ e ∈ collected, e.id ≠ "" ∧ e.id ∈ seen) →
    ((addBatch collected seen batch).1.map (·.id)).Nodup ∧
    (∀ e ∈ (addBatch collected seen batch).1, e.id ≠ "" ∧ e.id ∈ (addBatch collected seen batch).2) := by
  induction batch with
  | nil =>
    intro collected seen h1 h2
    exact ⟨h1, h2⟩
  | cons e es ih =>
    intro collected seen h1 h2
    unfold addBatch
    by_cases h : e.id = "" ∨ e.id ∈ seen
    · simp only [if_pos h]
      exact ih collected seen h1 h2
    · simp only [if_neg h]
      have h3 : e.id ≠ "" ∧ e.id ∉ seen :=
        ⟨fun hq => h (Or.inl hq), fun hq => h (Or.inr hq)⟩
      refine ih (collected ++ [e]) (seen ++ [e.id]) ?_ ?_
      · rw [List.map_append]
        refine List.Nodup.append h1 (by simp) ?_
        intro x hx hy
        simp only [List.map_cons, List.map_nil, List.mem_singleton] at hy
        subst hy
        obtain ⟨ex, hex, hexid⟩ := List.mem_map.1 hx
        exact h3.2 (hexid ▸ (h2 ex hex).2)
      · intro x hx
        rcases List.mem_append.1 hx with hx1 | hx1
        · obtain ⟨hne, hseen⟩ := h2 x hx1
          exact ⟨hne, List.mem_append.2 (Or.inl hseen)⟩
        · rw [List.mem_singleton] at hx1
          subst hx1
          exact ⟨h3.1, List.mem_append.2 (Or.inr (by simp))⟩

theorem swfGo_called (provider : String → List TMEvent) (target : ℕ) :
    ∀ (ts : List String) (collected : List TMEvent) (seen called : List String),
    ∃ pre post, ts = pre ++ post ∧
      (swfGo provider target ts collected seen called).2 = called ++ pre ∧
      (post = [] ∨ target ≤ (swfGo provider target ts collected seen called).1.length) := by
  intro ts
  induction ts with
  | nil =>
    intro collected seen called
    exact ⟨[], [], rfl, by simp [swfGo], Or.inl rfl⟩
  | cons t ts2 ih =>
    intro collected seen called
    unfold swfGo
    by_cases h : target ≤ (addBatch collected seen (provider t)).1.length
    · simp only [if_pos h]
      exact ⟨[t], ts2, rfl, rfl, Or.inr h⟩
    · simp only [if_neg h]
      obtain ⟨pre, post, he, hc, hstop⟩ := ih (addBatch collected seen (provider t)).1
        (addBatch collected seen (provider t)).2 (called ++ [t])
      refine ⟨t :: pre, post, by simp [he], by simpa using hc, hstop⟩

theorem swfGo_exhausts (provider : String → List TMEvent) (target : ℕ) :
    ∀ (ts : List String) (collected : List TMEvent) (seen called : List String),
    (swfGo provider target ts collected seen called).1.length < target →
    (swfGo provider target ts collected seen called).2 = called ++ ts := by
  intro ts
  induction ts with
  | nil => intro collected seen called _; simp [swfGo]
  | cons t ts2 ih =>
    intro collected seen called hlt
    unfold swfGo at hlt ⊢
    by_cases h : target ≤ (addBatch collected seen (provider t)).1.length
    · simp only [if_pos h] at hlt
      exact absurd h (not_le.2 hlt)
    · simp only [if_neg h] at hlt ⊢
      have := ih (addBatch collected seen (provider t)).1
        (addBatch collected seen (provider t)).2 (called ++ [t]) hlt
      simpa using this

theorem swfGo_nodup (provider : String → List TMEvent) (target : ℕ) :
    ∀ (ts : List String) (collected : List TMEvent) (seen called : List String),
    (collected.map (·.id)).Nodup → (∀ e ∈ collected, e.id ≠ "" ∧ e.id ∈ seen) →
    ((swfGo provider target ts collected seen called).1.map (·.id)).Nodup ∧
    (∀ e ∈ (swfGo provider target ts collected seen called).1, e.id ≠ "") := by
  intro ts
  induction ts with
  | nil =>
    intro collected seen called h1 h2
    exact ⟨h1, fun e he => (h2 e he).1⟩
  | cons t ts2 ih =>
    intro collected seen called h1 h2
    unfold swfGo
    obtain ⟨hn, hs⟩ := addBatch_invariant (provider t) collected seen h1 h2
    by_cases h : target ≤ (addBatch collected seen (provider t)).1.length
    · simp only [if_pos h]
      exact ⟨hn, fun e he => (hs e he).1⟩
    · simp only [if_neg h]
      exact ih (addBatch collected seen (provider t)).1
        (addBatch collected seen (provider t)).2 (called ++ [t]) hn hs

/-- Claim C3, amended.  For a non-empty term ladder: the provider is called
once per ladder entry in ladder order, stopping early exactly when the
accumulated deduplicated count reaches the target; collected event ids are
distinct and non-falsy.  The amendment: the early-stop target used for
provider calls is **5** for short trips and **15** otherwise (set in
`process`); the 3 / 10 figures from the claim are the *final ranking
truncation* applied after the search (`rankEvents`), not the search
stopping rule (see the counterexample). -/
theorem C3_term_ladder_amended (provider : String → List TMEvent)
    (terms : List String) (short : Bool) (rank : List TMEvent → List TMEvent)
    (events : List TMEvent) (h : terms ≠ []) :
    (∃ post, terms = (searchWithFallback provider terms (targetCount short)).2 ++ post) ∧
    (((searchWithFallback provider terms (targetCount short)).1.map (·.id)).Nodup ∧
      ∀ e ∈ (searchWithFallback provider terms (targetCount short)).1, e.id ≠ "") ∧
    ((searchWithFallback provider terms (targetCount short)).2 = terms ∨
      targetCount short ≤ (searchWithFallback provider terms (targetCount short)).1.length) ∧
    ((searchWithFallback provider terms (targetCount short)).1.length < targetCount short →
      (searchWithFallback provider terms (targetCount short)).2 = terms) ∧
    targetCount true = 5 ∧ targetCount false = 15 ∧
    (rankEvents rank short events).length ≤ rankLimit short ∧
    rankLimit true = 3 ∧ rankLimit false = 10 := by
  have hne : terms.isEmpty = false := by
    cases terms with
    | nil => exact absurd rfl h
    | cons a b => rfl
  have hswf : searchWithFallback provider terms (targetCount short) =
      swfGo provider (targetCount short) terms [] [] [] := by
    unfold searchWithFallback
    rw [hne]
    rfl
  rw [hswf]
  obtain ⟨pre, post, hsplit, hcalled, hstop⟩ :=
    swfGo_called provider (targetCount short) terms [] [] []
  obtain ⟨hnodup, hids⟩ := swfGo_nodup provider (targetCount short) terms [] [] []
    (by simp) (by simp)
  refine ⟨⟨post, by rw [hcalled]; simpa using hsplit⟩, ⟨hnodup, hids⟩, ?_, ?_, rfl, rfl, ?_, rfl, rfl⟩
  · rcases hstop with hp | hp
    · subst hp
      left
      rw [hcalled]
      simpa using hsplit.symm
    · exact Or.inr hp
  · intro hlt
    have := swfGo_exhausts provider (targetCount short) terms [] [] [] hlt
    simpa using this
  · unfold rankEvents
    exact (List.length_take _ _).trans_le (by simp)

/-- Witness for C3 on the concrete two-term ladder and the identity
ranking. -/
theorem C3_witness :
    (∃ post, ["a", "b"] = (searchWithFallback evProvider ["a", "b"] (targetCount true)).2 ++ post) ∧
    (((searchWithFallback evProvider ["a", "b"] (targetCount true)).1.map (·.id)).Nodup ∧
      ∀ e ∈ (searchWithFallback evProvider ["a", "b"] (targetCount true)).1, e.id ≠ "") ∧
    ((searchWithFallback evProvider ["a", "b"] (targetCount true)).2 = ["a", "b"] ∨
      targetCount true ≤ (searchWithFallback evProvider ["a", "b"] (targetCount true)).1.length) ∧
    ((searchWithFallback evProvider ["a", "b"] (targetCount true)).1.length < targetCount true →
      (searchWithFallback evProvider ["a", "b"] (targetCount true)).2 = ["a", "b"]) ∧
    targetCount true = 5 ∧ targetCount false = 15 ∧
    (rankEvents id true [⟨"e1"⟩, ⟨"e2"⟩, ⟨"e3"⟩, ⟨"e4"⟩]).length ≤ rankLimit true ∧
    rankLimit true = 3 ∧ rankLimit false = 10 :=
  C3_term_ladder_amended evProvider ["a", "b"] true id [⟨"e1"⟩, ⟨"e2"⟩, ⟨"e3"⟩, ⟨"e4"⟩]
    (by decide)

/-- Counterexample refuting C3 as stated: on a short trip the claim says
provider calls stop once 3 results are accumulated.  With term "a" already
yielding 3 distinct events, the code still calls the provider for term "b"
(its stop target is 5): both ladder terms are called and 4 events are
collected, whereas a target of 3 would have stopped after one call. -/
theorem C3_counterexample :
    (addBatch [] [] (evProvider "a")).1.length = 3 ∧
    (searchWithFallback evProvider ["a", "b"] (targetCount true)).2 = ["a", "b"] ∧
    (searchWithFallback evProvider ["a", "b"] (targetCount true)).1.length = 4 ∧
    (searchWithFallback evProvider ["a", "b"] 3).2 = ["a"] := by
  refine ⟨?_, ?_, ?_, ?_⟩ <;> decide


/-! ### Cross-request venue dedup (C10) -/

theorem vsFilter_excludes_used (prevVenues : List VSVenue) (prevIds usedIds : List String)
    (venues : List VSVenue) (x : String) (hx : x ∈ usedIds) :
    ∀ v ∈ vsFilter prevVenues prevIds usedIds venues, v.id ≠ x := by
  intro v hv
  have := (List.mem_filter.1 hv).2
  intro hvx
  subst hvx
  simp [hx] at this

theorem vsCandidates_exclude_used (provider1 provider2 : List VSVenue)
    (hasRadius : Bool) (prevSelected : List VSVenue) (usedIds : List String)
    (x : String) (hx : x ∈ usedIds) :
    ∀ v ∈ vsCandidates provider1 provider2 hasRadius prevSelected usedIds, v.id ≠ x := by
  intro v hv
  unfold vsCandidates at hv
  dsimp only at hv
  split at hv
  · have := (List.mem_filter.1 hv).2
    intro hvx
    subst hvx
    simp [hx] at this
  · exact vsFilter_excludes_used prevSelected _ usedIds provider1 x hx v hv

theorem VSprocess_candidates_exclude_used (rank : List VSVenue → List VSVenue)
    (provider1 provider2 : List VSVenue) (hasRadius : Bool)
    (prevSelected : List VSVenue) (usedIds : List String)
    (hrank : ∀ l, List.Perm (rank l) l) (x : String) (hx : x ∈ usedIds) :
    ∀ v ∈ (VSprocess rank provider1 provider2 hasRadius prevSelected usedIds).venues,
      v.id ≠ x := by
  intro v hv
  unfold VSprocess at hv
  by_cases hP : provider1.isEmpty
  · simp only [hP, if_true] at hv
    cases hv
  · simp only [hP, Bool.false_eq_true, if_false] at hv
    rcases henr : vsEnriched rank provider1 provider2 hasRadius prevSelected usedIds
      with _ | ⟨sel, rest⟩
    · rw [henr] at hv
      cases hv
    · rw [henr] at hv
      dsimp only at hv
      have hv2 : v ∈ (rank (vsCandidates provider1 provider2 hasRadius prevSelected
          usedIds)).take 5 := by
        have : v ∈ vsEnriched rank provider1 provider2 hasRadius prevSelected usedIds := by
          rw [henr]
          exact hv
        unfold vsEnriched at this
        exact this
      exact vsCandidates_exclude_used provider1 provider2 hasRadius prevSelected usedIds
        x hx v ((hrank _).mem_iff.1 (List.mem_of_mem_take hv2))

theorem VSprocess_used_of_head (rank : List VSVenue → List VSVenue)
    (provider1 provider2 : List VSVenue) (hasRadius : Bool)
    (prevSelected : List VSVenue) (usedIds : List String) (sel : VSVenue)
    (rest : List VSVenue)
    (h : (VSprocess rank provider1 provider2 hasRadius prevSelected usedIds).venues =
      sel :: rest) :
    (VSprocess rank provider1 provider2 hasRadius prevSelected usedIds).usedVenueIds =
      usedIds ++ [sel.id] := by
  unfold VSprocess at h ⊢
  by_cases hP : provider1.isEmpty
  · simp only [hP, if_true] at h
    cases h
  · simp only [hP, Bool.false_eq_true, if_false] at h ⊢
    rcases henr : vsEnriched rank provider1 provider2 hasRadius prevSelected usedIds
      with _ | ⟨s2, r2⟩
    · rw [henr] at h
      cases h
    · rw [henr] at h
      injection h with h1 h2
      subst h1
      rfl

/-- Claim C10.  The venue specialist's `usedVenueIds` is only ever appended
to (never cleared), and a single agent instance serves every request, so the
`usedIds` state threads from one request to the next: the id selected by a
request is recorded, and any later request on the same instance filters
every candidate with that id out — venue dedup is effectively global across
requests, regardless of the later request's session context
(`prevSelected`), providers, or radius flag. -/
theorem C10_cross_request_dedup (rank : List VSVenue → List VSVenue)
    (provider1 provider2 : List VSVenue) (hasRadius : Bool)
    (prevSelected : List VSVenue) (usedIds : List String)
    (hrank : ∀ l, List.Perm (rank l) l) :
    (∃ added, (VSprocess rank provider1 provider2 hasRadius prevSelected
        usedIds).usedVenueIds = usedIds ++ added) ∧
    (∀ sel rest, (VSprocess rank provider1 provider2 hasRadius prevSelected
        usedIds).venues = sel :: rest →
      sel.id ∈ (VSprocess rank provider1 provider2 hasRadius prevSelected
        usedIds).usedVenueIds ∧
      (∀ (p1 p2 : List VSVenue) (hr : Bool) (prev2 : List VSVenue),
        (∀ v ∈ vsFilter prev2 (prev2.map (·.id))
            (VSprocess rank provider1 provider2 hasRadius prevSelected usedIds).usedVenueIds
            p1, v.id ≠ sel.id) ∧
        (∀ v ∈ (VSprocess rank p1 p2 hr prev2
            (VSprocess rank provider1 provider2 hasRadius prevSelected
              usedIds).usedVenueIds).venues, v.id ≠ sel.id))) := by
  constructor
  · by_cases hP : provider1.isEmpty
    · exact ⟨[], by unfold VSprocess; simp [hP]⟩
    · rcases henr : vsEnriched rank provider1 provider2 hasRadius prevSelected usedIds
        with _ | ⟨sel, rest⟩
      · refine ⟨[], ?_⟩
        unfold VSprocess
        rw [if_neg (by simp [hP]), henr]
        simp
      · refine ⟨[sel.id], ?_⟩
        unfold VSprocess
        rw [if_neg (by simp [hP]), henr]
  · intro sel rest hsel
    have hused := VSprocess_used_of_head rank provider1 provider2 hasRadius prevSelected
      usedIds sel rest hsel
    have hmem : sel.id ∈ (VSprocess rank provider1 provider2 hasRadius prevSelected
        usedIds).usedVenueIds := by
      rw [hused]
      simp
    refine ⟨hmem, ?_⟩
    intro p1 p2 hr prev2
    constructor
    · exact vsFilter_excludes_used prev2 _ _ p1 sel.id hmem
    · exact VSprocess_candidates_exclude_used rank p1 p2 hr prev2 _ hrank sel.id hmem

/-- Witness for C10: the first request selects venue `v1`; a second request
whose provider returns `v1` again filters it out. -/
theorem C10_witness :
    (∃ added, (VSprocess id [⟨"v1", "Cafe A"⟩] [] true [] []).usedVenueIds = [] ++ added) ∧
    (∀ sel rest, (VSprocess id [⟨"v1", "Cafe A"⟩] [] true [] []).venues = sel :: rest →
      sel.id ∈ (VSprocess id [⟨"v1", "Cafe A"⟩] [] true [] []).usedVenueIds ∧
      (∀ (p1 p2 : List VSVenue) (hr : Bool) (prev2 : List VSVenue),
        (∀ v ∈ vsFilter prev2 (prev2.map (·.id))
            (VSprocess id [⟨"v1", "Cafe A"⟩] [] true [] []).usedVenueIds p1, v.id ≠ sel.id) ∧
        (∀ v ∈ (VSprocess id p1 p2 hr prev2
            (VSprocess id [⟨"v1", "Cafe A"⟩] [] true [] []).usedVenueIds).venues,
          v.id ≠ sel.id))) :=
  C10_cross_request_dedup id [⟨"v1", "Cafe A"⟩] [] true [] [] (fun l => List.Perm.refl l)


/-! ### Local jitter bound (C6) -/

theorem self_le_arcsin (s : ℝ) (h0 : 0 ≤ s) (h1 : s ≤ 1) : s ≤ Real.arcsin s := by
  have hs : Real.sin (Real.arcsin s) = s := Real.sin_arcsin (by linarith) h1
  have hnn : 0 ≤ Real.arcsin s := Real.arcsin_nonneg.2 h0
  calc s = Real.sin (Real.arcsin s) := hs.symm
    _ ≤ Real.arcsin s := Real.sin_le hnn

theorem arcsin_le_of_small (s : ℝ) (h0 : 0 ≤ s) (h1 : s ≤ 1/10) :
    Real.arcsin s ≤ 11/10 * s := by
  rcases eq_or_lt_of_le h0 with h | h
  · rw [← h, Real.arcsin_zero]
    norm_num
  · have hπ : (3.14 : ℝ) < Real.pi := Real.pi_gt_d2
    have hy : 11/10 * s ∈ Set.Icc (-(Real.pi/2)) (Real.pi/2) := by
      constructor <;> nlinarith
    have hx : s ∈ Set.Icc (-1 : ℝ) 1 := by
      constructor <;> nlinarith
    refine (Real.arcsin_le_iff_le_sin hx hy).2 ?_
    have hcube := Real.sin_gt_sub_cube (by nlinarith : (0:ℝ) < 11/10 * s)
      (by nlinarith : 11/10 * s ≤ 1)
    nlinarith [sq_nonneg s, mul_pos h h]

set_option maxHeartbeats 1000000 in
theorem havUpper (l1 l2 : Location)
    (h1 : |((l2.lat - l1.lat : ℚ) : ℝ)| ≤ 9/2000)
    (h2 : |((l2.lng - l1.lng : ℚ) : ℝ)| ≤ 9/2000)
    (d : ℝ) (hd : IsHavDist l1 l2 d) : d ≤ 4/5 := by
  obtain ⟨a, c, ha, hc, hdeq⟩ := hd
  have hπ1 : (3.14 : ℝ) < Real.pi := Real.pi_gt_d2
  have hπ2 : Real.pi < 3.15 := Real.pi_lt_d2
  set x1 : ℝ := ((l2.lat - l1.lat : ℚ) : ℝ) * Real.pi / 180 / 2 with hx1def
  set x2 : ℝ := ((l2.lng - l1.lng : ℚ) : ℝ) * Real.pi / 180 / 2 with hx2def
  have hb1 : x1 ^ 2 ≤ (63/1600000 : ℝ) ^ 2 := by
    have habs : |x1| ≤ 63/1600000 := by
      rw [hx1def]
      have h1' := abs_le.1 h1
      rw [abs_le]
      constructor <;> nlinarith [h1'.1, h1'.2]
    have h' := abs_le.1 habs
    nlinarith [h'.1, h'.2]
  have hb2 : x2 ^ 2 ≤ (63/1600000 : ℝ) ^ 2 := by
    have habs : |x2| ≤ 63/1600000 := by
      rw [hx2def]
      have h2' := abs_le.1 h2
      rw [abs_le]
      constructor <;> nlinarith [h2'.1, h2'.2]
    have h' := abs_le.1 habs
    nlinarith [h'.1, h'.2]
  have hcc : Real.cos ((l1.lat : ℝ) * Real.pi / 180) *
      Real.cos ((l2.lat : ℝ) * Real.pi / 180) ≤ 1 := by
    nlinarith [Real.cos_le_one ((l1.lat : ℝ) * Real.pi / 180),
      Real.neg_one_le_cos ((l1.lat : ℝ) * Real.pi / 180),
      Real.cos_le_one ((l2.lat : ℝ) * Real.pi / 180),
      Real.neg_one_le_cos ((l2.lat : ℝ) * Real.pi / 180)]
  have haB : a ≤ (31008 : ℝ)/10^13 := by
    have hs1 : Real.sin x1 ^ 2 ≤ x1 ^ 2 := Real.sin_sq_le_sq
    have hs2 : Real.sin x2 ^ 2 ≤ x2 ^ 2 := Real.sin_sq_le_sq
    have hs2nn : (0:ℝ) ≤ Real.sin x2 ^ 2 := sq_nonneg _
    nlinarith [mul_nonneg (sub_nonneg.2 hcc) hs2nn]
  rcases hc with ⟨hne, hceq⟩ | ⟨hz, _⟩
  · rcases le_or_lt a 0 with h0a | h0a
    · have hsz : Real.sqrt a = 0 := Real.sqrt_eq_zero'.2 h0a
      rw [hceq, hsz, zero_div, Real.arctan_zero] at hdeq
      rw [hdeq]
      norm_num
    · have ha1 : a < 1 := by linarith [haB]
      have hs_lt1 : Real.sqrt a < 1 := (Real.sqrt_lt' one_pos).2 (by nlinarith)
      have harc := Real.arcsin_eq_arctan
        (⟨by linarith [Real.sqrt_nonneg a], hs_lt1⟩ : Real.sqrt a ∈ Set.Ioo (-1 : ℝ) 1)
      rw [Real.sq_sqrt h0a.le] at harc
      have hceq2 : c = Real.arcsin (Real.sqrt a) := by rw [hceq, ← harc]
      have hsB : Real.sqrt a ≤ 557/10^7 := by
        rw [Real.sqrt_le_iff]
        constructor
        · norm_num
        · nlinarith
      have hup := arcsin_le_of_small (Real.sqrt a) (Real.sqrt_nonneg a)
        (by linarith : Real.sqrt a ≤ 1/10)
      rw [hdeq, hceq2]
      nlinarith [Real.sqrt_nonneg a]
  · exfalso
    have : 1 - a ≤ 0 := Real.sqrt_eq_zero'.1 hz
    linarith [haB]

set_option maxHeartbeats 1000000 in
theorem havLower :
    ∃ d : ℝ, IsHavDist ⟨0, 0⟩ ⟨-(9/2000), -(9/2000)⟩ d ∧ 7/10 < d := by
  have hπ1 : (3.14 : ℝ) < Real.pi := Real.pi_gt_d2
  have hπ2 : Real.pi < 3.15 := Real.pi_lt_d2
  obtain ⟨A, hAdef⟩ : ∃ A : ℝ,
      A = Real.sin ((((-(9/2000) : ℚ) - (0 : ℚ) : ℚ) : ℝ) * Real.pi / 180 / 2) ^ 2 +
        Real.cos (((0 : ℚ) : ℝ) * Real.pi / 180) *
          Real.cos (((-(9/2000) : ℚ) : ℝ) * Real.pi / 180) *
          Real.sin ((((-(9/2000) : ℚ) - (0 : ℚ) : ℚ) : ℝ) * Real.pi / 180 / 2) ^ 2 :=
    ⟨_, rfl⟩
  have hcast : ((((-(9/2000) : ℚ)) - (0 : ℚ) : ℚ) : ℝ) = -(9/2000 : ℝ) := by
    push_cast
    ring
  have hcast0 : (((0 : ℚ)) : ℝ) = (0 : ℝ) := by norm_num
  have hcast9 : (((-(9/2000) : ℚ)) : ℝ) = -(9/2000 : ℝ) := by
    push_cast
    ring
  have hargx : (-(9/2000 : ℝ)) * Real.pi / 180 / 2 = -(Real.pi / 80000) := by ring
  have hargy : (-(9/2000 : ℝ)) * Real.pi / 180 = -(Real.pi / 40000) := by ring
  have hA : A = Real.sin (Real.pi / 80000) ^ 2 * (1 + Real.cos (Real.pi / 40000)) := by
    rw [hAdef, hcast, hcast0, hcast9, hargx, hargy]
    rw [Real.sin_neg, Real.cos_neg]
    norm_num
    ring
  obtain ⟨x, hxdef⟩ : ∃ x : ℝ, x = Real.pi / 80000 := ⟨_, rfl⟩
  rw [← hxdef] at hA
  have hx_lo : (3925/10^8 : ℝ) < x := by
    rw [hxdef]
    linarith
  have hx_hi : x < 39375/10^9 := by
    rw [hxdef]
    linarith
  have hsin_lo : (39249/10^9 : ℝ) < Real.sin x := by
    have hcube := Real.sin_gt_sub_cube (by linarith : (0:ℝ) < x) (by linarith : x ≤ 1)
    have hxsq : x ^ 2 < (39375/10^9 : ℝ) ^ 2 := by nlinarith
    have hx3 : x ^ 3 < (39375/10^9 : ℝ) ^ 3 := by nlinarith [hxsq]
    nlinarith [hx3]
  have hsin_hi : Real.sin x ^ 2 ≤ x ^ 2 := Real.sin_sq_le_sq
  have hcos_lo : (99/100 : ℝ) ≤ Real.cos (Real.pi / 40000) := by
    have := Real.one_sub_sq_div_two_le_cos (x := Real.pi / 40000)
    nlinarith
  have hcos_hi : Real.cos (Real.pi / 40000) ≤ 1 := Real.cos_le_one _
  have hsin_pos : (0:ℝ) < Real.sin x := by
    have : (0:ℝ) < 39249/10^9 := by norm_num
    linarith
  have hsinsq_lo : (39249/10^9 : ℝ) ^ 2 < Real.sin x ^ 2 := by nlinarith
  have hA_lo : (306/10^11 : ℝ) < A := by
    rw [hA]
    nlinarith [hsinsq_lo, hcos_lo, sq_nonneg (Real.sin x)]
  have hA_hi : A < 1/2 := by
    rw [hA]
    nlinarith
  have hA_pos : 0 < A := by linarith
  have hne : Real.sqrt (1 - A) ≠ 0 := by
    have : 0 < Real.sqrt (1 - A) := Real.sqrt_pos.2 (by linarith)
    exact ne_of_gt this
  have hs_lt1 : Real.sqrt A < 1 := (Real.sqrt_lt' one_pos).2 (by linarith)
  have harc := Real.arcsin_eq_arctan
    (⟨by linarith [Real.sqrt_nonneg A], hs_lt1⟩ : Real.sqrt A ∈ Set.Ioo (-1 : ℝ) 1)
  rw [Real.sq_sqrt hA_pos.le] at harc
  have hsA_lo : (7/127420 : ℝ) < Real.sqrt A := by
    refine (Real.lt_sqrt (by norm_num)).2 ?_
    nlinarith
  have hsA_le1 : Real.sqrt A ≤ 1 := by
    rw [Real.sqrt_le_iff]
    constructor
    · norm_num
    · linarith
  have harcsin_ge := self_le_arcsin (Real.sqrt A) (Real.sqrt_nonneg A) hsA_le1
  refine ⟨6371 * (2 * Real.arctan (Real.sqrt A / Real.sqrt (1 - A))),
    ⟨A, _, hAdef, Or.inl ⟨hne, rfl⟩, rfl⟩, ?_⟩
  rw [← harc]
  nlinarith

theorem ensureNearbyLocations_local (jit : ℕ → ℚ × ℚ) (plan : PlanModel) (intent : PIntent)
    (hl : isLocalSearch intent = true) (hs : hasSpecificLocations intent = false) :
    ensureNearbyLocations jit plan intent =
      { searchPoints := plan.searchPoints.mapIdx
          (fun i p => jitterPoint (intent.user_location.getD defaultUserLoc) (jit i) p),
        searchStrategy :=
          plan.searchStrategy.map (fun st => { st with searchRadius := 1500 }) } := by
  unfold ensureNearbyLocations
  rw [hl, hs]
  rfl

/-- Claim C6 (amended).  On a local-search intent with no explicit
locations: (1) if the plan has a searchStrategy its searchRadius is
overwritten with 1500 m, and otherwise no radius is set; (2) every search
point is rewritten to the user location plus an independent jitter of
`(r - 0.5) * 0.009` degrees per axis (`r` the `Math.random()` draw in
`[0,1)`), and the great-circle distance (as the code's own haversine
computes it) between the rewritten coordinate and the user location is at
most 0.8 km.  The claimed ~600 m bound is too tight: the true supremum is
about 708 m (see the counterexample). -/
theorem C6_local_jitter_amended (jit : ℕ → ℚ × ℚ) (plan : PlanModel) (intent : PIntent)
    (hjit : ∀ i, 0 ≤ (jit i).1 ∧ (jit i).1 < 1 ∧ 0 ≤ (jit i).2 ∧ (jit i).2 < 1)
    (hl : isLocalSearch intent = true) (hs : hasSpecificLocations intent = false) :
    (ensureNearbyLocations jit plan intent).searchStrategy =
      plan.searchStrategy.map (fun st => { st with searchRadius := 1500 }) ∧
    ∀ p' ∈ (ensureNearbyLocations jit plan intent).searchPoints, ∀ d : ℝ,
      IsHavDist (intent.user_location.getD defaultUserLoc) p'.location d → d ≤ 4/5 := by
  have hloc := ensureNearbyLocations_local jit plan intent hl hs
  refine ⟨by rw [hloc], ?_⟩
  intro p' hp' d hd
  rw [hloc] at hp'
  dsimp only at hp'
  rw [List.mapIdx_eq_enum_map, List.mem_map] at hp'
  obtain ⟨⟨i, p⟩, _, hep⟩ := hp'
  obtain ⟨hr1, hr2, hr3, hr4⟩ := hjit i
  have hr1' : (0:ℝ) ≤ ((jit i).1 : ℝ) := by exact_mod_cast hr1
  have hr2' : ((jit i).1 : ℝ) < 1 := by exact_mod_cast hr2
  have hr3' : (0:ℝ) ≤ ((jit i).2 : ℝ) := by exact_mod_cast hr3
  have hr4' : ((jit i).2 : ℝ) < 1 := by exact_mod_cast hr4
  rw [← hep] at hd
  have hd2 : IsHavDist (intent.user_location.getD defaultUserLoc)
      (jitterPoint (intent.user_location.getD defaultUserLoc) (jit i) p).location d := hd
  refine havUpper _ _ ?_ ?_ d hd2
  · have e : ((jitterPoint (intent.user_location.getD defaultUserLoc) (jit i) p).location.lat
        - (intent.user_location.getD defaultUserLoc).lat : ℚ)
        = ((jit i).1 - 1/2) * (9/1000) := by
      show ((intent.user_location.getD defaultUserLoc).lat + ((jit i).1 - 1/2) * (9/1000)
        - (intent.user_location.getD defaultUserLoc).lat : ℚ) = _
      ring
    rw [e, abs_le]
    push_cast
    constructor <;> nlinarith
  · have e : ((jitterPoint (intent.user_location.getD defaultUserLoc) (jit i) p).location.lng
        - (intent.user_location.getD defaultUserLoc).lng : ℚ)
        = ((jit i).2 - 1/2) * (9/1000) := by
      show ((intent.user_location.getD defaultUserLoc).lng + ((jit i).2 - 1/2) * (9/1000)
        - (intent.user_location.getD defaultUserLoc).lng : ℚ) = _
      ring
    rw [e, abs_le]
    push_cast
    constructor <;> nlinarith

/-- Witness for C6: the mid-range draw 1/2 on every axis satisfies the
jitter bounds, `intentC6` is a local search without explicit locations,
and the conclusion holds for the concrete one-point plan. -/
theorem C6_witness :
    (ensureNearbyLocations (fun _ => (1/2, 1/2)) planC6 intentC6).searchStrategy =
      planC6.searchStrategy.map (fun st => { st with searchRadius := 1500 }) ∧
    ∀ p' ∈ (ensureNearbyLocations (fun _ => (1/2, 1/2)) planC6 intentC6).searchPoints,
      ∀ d : ℝ, IsHavDist (intentC6.user_location.getD defaultUserLoc) p'.location d →
        d ≤ 4/5 :=
  C6_local_jitter_amended (fun _ => (1/2, 1/2)) planC6 intentC6
    (fun _ => ⟨by norm_num, by norm_num, by norm_num, by norm_num⟩) rfl rfl

/-- Counterexample for C6's ~600 m bound: with both draws at 0 (a legal
value of `Math.random()`), the user at the equator origin is rewritten to
`(-0.0045, -0.0045)`, and the code's haversine distance between the two
exceeds 0.7 km — more than the claimed ~600 m. -/
theorem C6_counterexample :
    ((0:ℚ) ≤ 0 ∧ (0:ℚ) < 1) ∧
    isLocalSearch intentC6 = true ∧
    hasSpecificLocations intentC6 = false ∧
    intentC6.user_location.getD defaultUserLoc = ⟨0, 0⟩ ∧
    (ensureNearbyLocations (fun _ => (0, 0)) planC6 intentC6).searchPoints =
      [{ pointC6 with location := ⟨-(9/2000), -(9/2000)⟩ }] ∧
    ∃ d : ℝ, IsHavDist ⟨0, 0⟩ ⟨-(9/2000), -(9/2000)⟩ d ∧ 7/10 < d := by
  refine ⟨⟨le_refl 0, by norm_num⟩, rfl, rfl, rfl, ?_, havLower⟩
  rw [ensureNearbyLocations_local (fun _ => (0, 0)) planC6 intentC6 rfl rfl]
  dsimp only [planC6]
  rw [List.mapIdx_eq_enum_map]
  simp only [List.enum, List.enumFrom, List.map]
  simp only [jitterPoint, intentC6, pointC6, Option.getD]
  norm_num

/-! ### Per-attempt error recovery (C7) -/

theorem adjustPoint_fields (dist : DistFn) (adjust : Location → Location → Location)
    (isLocal : Bool) (ctxLoc : Option Location) (p : SearchPoint) :
    (adjustPoint dist adjust isLocal ctxLoc p).type = p.type ∧
    (adjustPoint dist adjust isLocal ctxLoc p).query = p.query ∧
    (adjustPoint dist adjust isLocal ctxLoc p).stopNumber = p.stopNumber ∧
    (adjustPoint dist adjust isLocal ctxLoc p).category = p.category ∧
    (adjustPoint dist adjust isLocal ctxLoc p).isExplicitRequest = p.isExplicitRequest := by
  unfold adjustPoint
  refine ⟨?_, ?_, ?_, ?_, ?_⟩ <;> (split <;> (try split) <;> (try split) <;> rfl)

theorem adjustPoint_nonlocal (dist : DistFn) (adjust : Location → Location → Location)
    (ctxLoc : Option Location) (p : SearchPoint) :
    adjustPoint dist adjust false ctxLoc p = p := rfl

theorem execStep_venue_error (dist : DistFn) (adjust : Location → Location → Location)
    (isLocal : Bool) (ctxLoc : Option Location)
    (venueO : ℕ → Except Unit (List Stop)) (nearbyO : ℕ → Except Unit (List String))
    (eventO : ℕ → Except Unit (List Stop)) (i : ℕ) (p : SearchPoint) (st : ExecState)
    (hty : p.type = "venue") (hv : venueO i = .error ()) :
    execStep dist adjust isLocal ctxLoc venueO nearbyO eventO i p st =
      ([mkPlaceholder (adjustPoint dist adjust isLocal ctxLoc p)], st) := by
  unfold execStep
  have hty2 : (adjustPoint dist adjust isLocal ctxLoc p).type = "venue" :=
    (adjustPoint_fields dist adjust isLocal ctxLoc p).1.trans hty
  rw [if_pos hty2]
  unfold resolveVenuePoint
  rw [hv]

theorem execStep_venue_state (dist : DistFn) (adjust : Location → Location → Location)
    (isLocal : Bool) (ctxLoc : Option Location)
    (venueO : ℕ → Except Unit (List Stop)) (nearbyO : ℕ → Except Unit (List String))
    (eventO : ℕ → Except Unit (List Stop)) (i : ℕ) (p : SearchPoint) (st : ExecState)
    (hty : p.type = "venue") :
    (execStep dist adjust isLocal ctxLoc venueO nearbyO eventO i p st).2 = st := by
  unfold execStep
  have hty2 : (adjustPoint dist adjust isLocal ctxLoc p).type = "venue" :=
    (adjustPoint_fields dist adjust isLocal ctxLoc p).1.trans hty
  rw [if_pos hty2]

/-- Claim C7.  Provider errors are recovered per attempt: (1) the Google
Places client returns `[]` (never propagates) when its HTTP calls throw —
whatever the later strategies would have returned; (2) a venue point whose
agent call throws still yields exactly one stop: a placeholder carrying the
point's query text and (for non-local plans, where the point is not
rewritten) its target coordinate; (3) the rest of the points resolve
exactly as they would have otherwise — a venue point leaves the loop state
untouched, so the tail of the loop is unaffected by the error. -/
theorem C7_error_recovery (dist : DistFn) (adjust : Location → Location → Location)
    (isLocal : Bool) (ctxLoc : Option Location)
    (venueO : ℕ → Except Unit (List Stop)) (nearbyO : ℕ → Except Unit (List String))
    (eventO : ℕ → Except Unit (List Stop)) (i : ℕ) (p : SearchPoint) (st : ExecState)
    (rest : List (ℕ × SearchPoint))
    (hty : p.type = "venue") (hv : venueO i = .error ()) :
    (∀ (loc : Location) (radius : ℚ) (limit : ℕ) (cat : String)
      (rankNearby : List Stop → List Stop) (broaderRes landmarkRes : Except Unit (List Stop)),
      searchVenuesModel dist loc radius limit cat rankNearby
        (.error ()) (.error ()) broaderRes landmarkRes = []) ∧
    ((execStep dist adjust isLocal ctxLoc venueO nearbyO eventO i p st).1 =
      [mkPlaceholder (adjustPoint dist adjust isLocal ctxLoc p)] ∧
      (mkPlaceholder (adjustPoint dist adjust isLocal ctxLoc p)).name = p.query ∧
      (mkPlaceholder (adjustPoint dist adjust isLocal ctxLoc p)).isPlaceholder = true ∧
      (isLocal = false →
        (mkPlaceholder (adjustPoint dist adjust isLocal ctxLoc p)).location = p.location)) ∧
    (execGo dist adjust isLocal ctxLoc venueO nearbyO eventO ((i, p) :: rest) st =
      ([mkPlaceholder (adjustPoint dist adjust isLocal ctxLoc p)] ++
        (execGo dist adjust isLocal ctxLoc venueO nearbyO eventO rest st).1,
       (execGo dist adjust isLocal ctxLoc venueO nearbyO eventO rest st).2)) := by
  have hstep := execStep_venue_error dist adjust isLocal ctxLoc venueO nearbyO eventO
    i p st hty hv
  refine ⟨?_, ⟨?_, ?_, rfl, ?_⟩, ?_⟩
  · intro loc radius limit cat rankNearby broaderRes landmarkRes
    unfold searchVenuesModel
    dsimp only
    split <;> rfl
  · rw [hstep]
  · show (mkPlaceholder (adjustPoint dist adjust isLocal ctxLoc p)).name = p.query
    unfold mkPlaceholder
    exact (adjustPoint_fields dist adjust isLocal ctxLoc p).2.1
  · intro hnl
    subst hnl
    rw [adjustPoint_nonlocal]
    rfl
  · have hcons : execGo dist adjust isLocal ctxLoc venueO nearbyO eventO ((i, p) :: rest) st
        = ((execStep dist adjust isLocal ctxLoc venueO nearbyO eventO i p st).1 ++
            (execGo dist adjust isLocal ctxLoc venueO nearbyO eventO rest
              (execStep dist adjust isLocal ctxLoc venueO nearbyO eventO i p st).2).1,
           (execGo dist adjust isLocal ctxLoc venueO nearbyO eventO rest
              (execStep dist adjust isLocal ctxLoc venueO nearbyO eventO i p st).2).2) := rfl
    rw [hcons, hstep]

/-- Witness for C7: an always-throwing venue oracle on a non-local plan:
the step yields exactly the placeholder with the point's query and
coordinate, and the loop continues untouched. -/
theorem C7_witness :
    (∀ (loc : Location) (radius : ℚ) (limit : ℕ) (cat : String)
      (rankNearby : List Stop → List Stop) (broaderRes landmarkRes : Except Unit (List Stop)),
      searchVenuesModel flatDist loc radius limit cat rankNearby
        (.error ()) (.error ()) broaderRes landmarkRes = []) ∧
    ((execStep flatDist idAdjust false none venueErrO nearbyNilO eventNilO 0 pointC7
        {}).1 = [mkPlaceholder (adjustPoint flatDist idAdjust false none pointC7)] ∧
      (mkPlaceholder (adjustPoint flatDist idAdjust false none pointC7)).name =
        pointC7.query ∧
      (mkPlaceholder (adjustPoint flatDist idAdjust false none pointC7)).isPlaceholder =
        true ∧
      (false = false →
        (mkPlaceholder (adjustPoint flatDist idAdjust false none pointC7)).location =
          pointC7.location)) ∧
    (execGo flatDist idAdjust false none venueErrO nearbyNilO eventNilO
        [(0, pointC7)] {} =
      ([mkPlaceholder (adjustPoint flatDist idAdjust false none pointC7)] ++
        (execGo flatDist idAdjust false none venueErrO nearbyNilO eventNilO [] {}).1,
       (execGo flatDist idAdjust false none venueErrO nearbyNilO eventNilO [] {}).2)) :=
  C7_error_recovery flatDist idAdjust false none venueErrO nearbyNilO eventNilO 0 pointC7
    {} [] rfl rfl

end PlanMate
